import Mathlib

/-!
Shallow embedding of the ForgeBot per-user transaction-flow engine.

Sources embedded (TypeScript):
  * `src/utils/validators.ts`   — `isValidAmount`, `hasEnoughBalance`
  * `src/commands/withdraw.ts`  — `handleWithdrawAmount`, `handleWithdrawConfirmation`
  * `src/commands/sell.ts`      — `handleSellAmountInput`, `handleSellAmountLogic`,
                                  `handleSellConfirmation`, and (same file) the Buy handlers
                                  `handleBuyAmountInput`, `handleBuyConfirmation`
  * `src/lib/token-wallet.ts`   — `getTokenAllowance`
  * `index.ts`                  — the `/api/action` and `/api/callback` dispatch (cancel case)

Modelling conventions:
  * JS `BigInt` values are Lean `Int`; base-unit amounts that the source keeps as
    canonical decimal strings inside `tempData` (and re-parses with `BigInt(...)`,
    which is the identity on such strings) are modelled as `Int` directly.
  * External calls are parameters ("environments"): a call that can reject carries
    `Option`, where `none` is the thrown/rejected case; the JS `try/catch` around a
    handler body becomes the corresponding error branch, and mutations performed
    before the throw are kept, as in the source (objects are mutated in place).
  * `getGasParams` is total in the source (it has an internal fallback), so its
    result is a plain value.
  * Response strings keep the fixed prefix of the source message; dynamic suffixes
    (balances, hashes, symbols) are omitted — only message identity matters here.
  * `parseFloat` is modelled as exact decimal-to-rational parsing followed by
    rounding to 53 significant bits (IEEE binary64 round-to-nearest); inputs in
    scope have no rounding ties, and no overflow/subnormal cases arise.
-/

namespace ForgeBot

/-! ### Decimal-digit utilities -/

/-- Numeric value of a decimal digit character; 0 for non-digits. -/
def digitVal (c : Char) : Nat := c.toNat - 48

/-- Value of a list of decimal digit characters, most significant first. -/
def digitsToNat (cs : List Char) : Nat := cs.foldl (fun a c => a * 10 + digitVal c) 0

/-- The decimal digit character for `n < 10`. -/
def digitChar (n : Nat) : Char := Char.ofNat (48 + n)

/-- Fuel-driven decimal printer, most significant digit first (fuel ≥ number of digits). -/
def natDigitsAux : Nat → Nat → List Char
  | 0, _ => []
  | fuel + 1, n => if n < 10 then [digitChar n] else natDigitsAux fuel (n / 10) ++ [digitChar (n % 10)]

/-- Decimal string of a natural number (models JS `BigInt`/number `toString`). -/
def natDecString (n : Nat) : String := ⟨natDigitsAux (n + 1) n⟩

/-- Decimal string of an integer (models JS `toString` on a BigInt). -/
def intDecString (n : Int) : String :=
  if n < 0 then "-" ++ natDecString n.natAbs else natDecString n.natAbs

/-! ### JS `BigInt(string)` (used by `hasEnoughBalance` and allowance parsing)

`StringToBigInt`: leading/trailing whitespace is ignored, the empty remainder is 0,
a `0x`/`0o`/`0b` prefix selects a radix (no sign allowed then), otherwise an optional
sign followed by at least one decimal digit; anything else throws (here: `none`). -/

/-- JS whitespace/line terminators (the ASCII ones that occur in practice). -/
def jsWhitespace (c : Char) : Bool :=
  c = ' ' || c = '\t' || c = '\n' || c = '\r' || c = Char.ofNat 11 || c = Char.ofNat 12

/-- Hex digit value, `none` for non-hex characters. -/
def hexDigitVal (c : Char) : Option Nat :=
  if '0' ≤ c ∧ c ≤ '9' then some (c.toNat - 48)
  else if 'a' ≤ c ∧ c ≤ 'f' then some (c.toNat - 87)
  else if 'A' ≤ c ∧ c ≤ 'F' then some (c.toNat - 55)
  else none

/-- Value of digit characters in a given radix, all of which must be valid and below the radix. -/
def radixVal (radix : Nat) (cs : List Char) : Option Nat :=
  if cs = [] then none
  else cs.foldl (fun a c =>
    match a, hexDigitVal c with
    | some v, some d => if d < radix then some (v * radix + d) else none
    | _, _ => none) (some 0)

/-- A nonempty all-decimal-digit run, as a value. -/
def decDigits (cs : List Char) : Option Int :=
  if cs ≠ [] ∧ cs.all Char.isDigit then some (digitsToNat cs) else none

/-- Decimal part of `StringToBigInt`: optional sign, then at least one decimal digit. -/
def decParse (cs : List Char) : Option Int :=
  if cs.head? = some '+' then decDigits cs.tail
  else if cs.head? = some '-' then (decDigits cs.tail).map (fun v => -v)
  else decDigits cs

/-- JS `BigInt(string)`: `none` models the thrown `SyntaxError`. -/
def parseBigIntJS (s : String) : Option Int :=
  let cs := ((s.data.dropWhile jsWhitespace).reverse.dropWhile jsWhitespace).reverse
  if cs = [] then some 0
  else if cs.head? = some '0' ∧ (cs.tail.head? = some 'x' ∨ cs.tail.head? = some 'X') then
    (radixVal 16 cs.tail.tail).map Int.ofNat
  else if cs.head? = some '0' ∧ (cs.tail.head? = some 'o' ∨ cs.tail.head? = some 'O') then
    (radixVal 8 cs.tail.tail).map Int.ofNat
  else if cs.head? = some '0' ∧ (cs.tail.head? = some 'b' ∨ cs.tail.head? = some 'B') then
    (radixVal 2 cs.tail.tail).map Int.ofNat
  else decParse cs

/-! ### `src/utils/validators.ts` -/

/-- The negative lookahead `(?!0\d)` of the amount regex: fails exactly when the
first character is `0` and the second a digit. -/
def negLookaheadOk (l : List Char) : Bool :=
  match l with
  | c0 :: c1 :: _ => !(c0 = '0' && c1.isDigit)
  | _ => true

/-- After the greedy `\d*`: the rest must be empty or `.` followed by 1–18 digits. -/
def matchFracPart (l : List Char) : Bool :=
  if l = [] then true
  else if l.head? = some '.' then
    decide (1 ≤ l.tail.length) && decide (l.tail.length ≤ 18) && l.tail.all Char.isDigit
  else false

/-- Matcher for `/^(?!0\d)\d*(\.\d{1,18})?$/` (the greedy `\d*` is exact here because
no continuation of the regex can start with a digit). -/
def amountRegexTest (s : String) : Bool :=
  negLookaheadOk s.data && matchFracPart (s.data.dropWhile Char.isDigit)

/-- A numeral `digits [ '.' digits ]` as an exact scaled integer: the pair
`(n, k)` denotes the value `n / 10^k` (`k` = number of fraction digits). -/
def numeralParts (s : String) : Nat × Nat :=
  let ip := s.data.takeWhile Char.isDigit
  let rest := s.data.dropWhile Char.isDigit
  let fp := if rest.head? = some '.' then rest.tail else []
  (digitsToNat ip * 10 ^ fp.length + digitsToNat fp, fp.length)

/-- Exact rational value of a numeral (for specification statements). -/
def numeralValue (s : String) : ℚ :=
  ((numeralParts s).1 : ℚ) / ((10 : ℚ) ^ (numeralParts s).2)

/-- `isValidAmount` from `validators.ts`: the regex test and `parseFloat(amount) > 0`.
For regex-accepted strings the value is 0 or at least 10^-18, and binary64
round-to-nearest preserves positivity there, so `parseFloat(s) > 0` coincides with
exact positivity of the numeral value, i.e. of its scaled numerator. -/
def isValidAmount (s : String) : Bool :=
  amountRegexTest s && decide (0 < (numeralParts s).1)

/-! ### Specification-side reading of the amount grammar (for the refinement claim)

`specValidAmount` follows the claim's words: a non-negative decimal numeral —
an optional run of digit characters, optionally followed by a decimal point and
1–18 fraction digits — with no redundant leading zero (a leading `0` directly
followed by another digit) and numeric value strictly greater than 0. -/

/-- The characters contributed by the optional fraction part (point included). -/
def fracTail : Option (List Char) → List Char
  | none => []
  | some fp => '.' :: fp

/-- The fraction digits themselves. -/
def fracChars : Option (List Char) → List Char
  | none => []
  | some fp => fp

/-- The numeric value of the decomposed numeral. -/
def specValue (ip : List Char) (ofp : Option (List Char)) : ℚ :=
  (digitsToNat ip : ℚ) + (digitsToNat (fracChars ofp) : ℚ) / (10 : ℚ) ^ (fracChars ofp).length

/-- The claim's characterisation of a valid amount string. -/
def specValidAmount (s : String) : Prop :=
  ∃ (ip : List Char) (ofp : Option (List Char)),
    s.data = ip ++ fracTail ofp ∧
    (∀ c ∈ ip, c.isDigit = true) ∧
    (∀ fp, ofp = some fp →
      (∀ c ∈ fp, c.isDigit = true) ∧ 1 ≤ fp.length ∧ fp.length ≤ 18) ∧
    (¬∃ c cs, ip = '0' :: c :: cs) ∧
    0 < specValue ip ofp

/-- `hasEnoughBalance` from `validators.ts`: `BigInt` all three strings and compare
`balance >= amount + gasEstimate`; any parse failure is caught and yields `false`. -/
def hasEnoughBalance (balance amount gasEstimate : String) : Bool :=
  match parseBigIntJS balance, parseBigIntJS amount, parseBigIntJS gasEstimate with
  | some b, some a, some g => decide (a + g ≤ b)
  | _, _, _ => false

/-! ### viem unit conversion (`parseUnits` / `parseEther` / `formatUnits`) -/

/-- viem `parseUnits(s, decimals)` restricted to numerals `digits [ '.' digits ]` whose
fraction fits in `decimals` digits (exact conversion). Other inputs give `none`
(thrown); the viem rounding path for over-long fractions is outside the scope of the
theorems below, whose hypotheses supply a successful exact parse. -/
def parseUnitsExact (s : String) (decimals : Nat) : Option Int :=
  let ip := s.data.takeWhile Char.isDigit
  let rest := s.data.dropWhile Char.isDigit
  if rest = [] then
    if ip = [] then none else some ((digitsToNat ip : Int) * (10 : Int) ^ decimals)
  else if rest.head? = some '.' then
    let fp := rest.tail
    if fp ≠ [] ∧ fp.all Char.isDigit ∧ fp.length ≤ decimals then
      some ((digitsToNat ip : Int) * (10 : Int) ^ decimals
        + (digitsToNat fp : Int) * (10 : Int) ^ (decimals - fp.length))
    else none
  else none

/-- viem `parseEther`. -/
def parseEther (s : String) : Option Int := parseUnitsExact s 18

/-- viem `formatUnits(x, d)` for a nonnegative value: decimal point inserted, trailing
fraction zeros trimmed. -/
def fromBaseUnits (x : Nat) (d : Nat) : String :=
  let ip := x / 10 ^ d
  let fp := x % 10 ^ d
  if fp = 0 then natDecString ip
  else
    let fs := natDecString fp
    let padded := List.replicate (d - fs.length) '0' ++ fs.data
    let trimmed := (padded.reverse.dropWhile (· = '0')).reverse
    natDecString ip ++ "." ++ ⟨trimmed⟩

/-- Modelled from the spec: `formatEthBalance` lives in `src/utils/formatters.ts`,
which is not under `src/`; the spec Unit Converter specifies exact base-unit
formatting (`fromBaseUnits(integer, decimals) -> decimalString`), here with the
native asset 18 decimals. -/
def formatEthBalance (x : Int) : String := fromBaseUnits x.natAbs 18

/-! ### JS `parseFloat` (binary64) model, used only by the Buy amount check

A nonnegative double is a pair `(m, e)` with value `m * 2^e`, where `m = 0` or
`2^52 ≤ m < 2^53`. Rounding is to nearest, ties up (the IEEE tie-to-even case
does not arise for the inputs considered here); no overflow/subnormal handling —
amounts in scope are far inside the normal range. -/

/-- Normalise the fraction `p / q` into `[2^52, 2^53)` by doubling `p` or `q`,
tracking the binary exponent so that `(p / q) * 2^e` is invariant. The fuel bound
exceeds the number of doublings ever needed. -/
def fpNormAux : Nat → Nat → Nat → Int → Nat × Nat × Int
  | 0, p, q, e => (p, q, e)
  | fuel + 1, p, q, e =>
    if p < q * 2 ^ 52 then fpNormAux fuel (p * 2) q (e - 1)
    else if q * 2 ^ 53 ≤ p then fpNormAux fuel p (q * 2) (e + 1)
    else (p, q, e)

/-- Round the scaled decimal `num / 10^scale` to a binary64 value `(mantissa, exp)`. -/
def floatOfScaled (num scale : Nat) : Nat × Int :=
  if num = 0 then (0, 0)
  else
    let pqe := fpNormAux (num + 10 ^ scale + 200) num (10 ^ scale) 0
    let m := (2 * pqe.1 + pqe.2.1) / (2 * pqe.2.1)
    if m = 2 ^ 53 then (2 ^ 52, pqe.2.2 + 1) else (m, pqe.2.2)

/-- Strict comparison of two nonnegative binary64 values `(m, e)` (value `m * 2^e`). -/
def fpLt (a b : Nat × Int) : Bool :=
  let d := a.2 - b.2
  if 0 ≤ d then decide (a.1 * 2 ^ d.toNat < b.1)
  else decide (a.1 < b.1 * 2 ^ (-d).toNat)

/-- JS `parseFloat` on a nonnegative decimal numeral (all call sites in scope are
nonnegative): exact scaled value, rounded to binary64 precision. -/
def jsParseFloat (s : String) : Nat × Int :=
  floatOfScaled (numeralParts s).1 (numeralParts s).2

/-! ### ASCII case folding and prefix test (kernel-friendly replacements for the
corresponding JS string methods on the address/token strings in scope) -/

/-- ASCII lower-casing of one character (JS `toLowerCase` on the strings in scope). -/
def asciiLower (c : Char) : Char :=
  if 'A' ≤ c ∧ c ≤ 'Z' then Char.ofNat (c.toNat + 32) else c

/-- JS `toLowerCase` on ASCII strings (addresses, the literal `"max"`). -/
def jsToLower (s : String) : String := ⟨s.data.map asciiLower⟩

/-- JS `startsWith`. -/
def strStartsWith (s p : String) : Bool := p.data.isPrefixOf s.data

/-! ### Session data model (`src/types/commands.ts`)

`tempData` is an open string-keyed bag in the source; the fields actually read or
written by the embedded handlers are modelled as optional record fields (`none` =
key absent), and `session.tempData = {}` becomes `TempData.empty`. Base-unit
amounts that the source stores as canonical decimal strings are stored as `Int`
(see the header note); the gas-parameter strings are kept as strings because they
are only passed through. -/

structure TempData where
  fromAddr : Option String := none
  toAddr : Option String := none
  balance : Option Int := none
  amount : Option Int := none
  maxFeePerGas : Option String := none
  maxPriorityFeePerGas : Option String := none
  fromToken : Option String := none
  toToken : Option String := none
  fromSymbol : Option String := none
  toSymbol : Option String := none
  fromDecimals : Option Nat := none
  toDecimals : Option Nat := none
  walletAddress : Option String := none
  tokenBalance : Option Int := none
  fromAmount : Option Int := none
  gasPrice : Option String := none
  toAmount : Option Int := none
  estimatedGas : Option Int := none
deriving DecidableEq, Repr

/-- The empty `tempData` bag (`{}` in the source). -/
def TempData.empty : TempData := {}

/-- User settings (`slippage` is only ever `toString`-ed, so it is kept as a string). -/
structure UserSettings where
  slippage : String := "1.0"
  gasPriority : String := "medium"
deriving DecidableEq, Repr

/-- Per-user session state (`BotState`): `currentAction = none` is the idle state. -/
structure Session where
  userId : Option String := none
  currentAction : Option String := none
  tempData : TempData := {}
  settings : Option UserSettings := none
deriving DecidableEq, Repr

/-- Wallet handle; only the address is read by the embedded handlers. -/
structure WalletData where
  address : String
deriving DecidableEq, Repr

inductive TxStatus
  | success
  | failure
deriving DecidableEq, Repr

/-- `TransactionReceipt` from `src/types/wallet.ts` (numeric strings as `Int`). -/
structure Receipt where
  transactionHash : String
  status : TxStatus
  gasUsed : Int
  effectiveGasPrice : Int
deriving DecidableEq, Repr

/-- The fields of an OpenOcean swap response read by the handlers. -/
structure SwapData where
  toAddr : String
  callData : String
  value : Int
  gasPrice : Int
  inAmount : Int
deriving DecidableEq, Repr

/-- Gas parameters from `getGasParams` (total in the source: internal fallback). -/
structure GasParams where
  price : String := "0.1"
  maxFeePerGas : String := "0.1"
  maxPriorityFeePerGas : String := "0.05"
deriving DecidableEq, Repr

/-- The fields of an OpenOcean quote response read by the handlers. -/
structure Quote where
  outAmount : Int
  estimatedGas : Int
deriving DecidableEq, Repr

/-- Externally visible side effects performed by a handler, in order. -/
inductive Effect
  | approvalCall (tokenAddr spender : String) (amount : Nat)
  | swapExec (toAddr : String) (value : Int)
  | withdrawExec (toAddr : String) (amount : Int)
  | saveTx (hash : String) (status : TxStatus)
deriving DecidableEq, Repr

/-- Result of one handler invocation: new session, response text, effects. -/
structure Turn where
  session : Session
  response : String
  effects : List Effect := []
deriving DecidableEq, Repr

/-- Reset the active flow: `currentAction = undefined; tempData = {}`. -/
def clearFlow (s : Session) : Session := { s with currentAction := none, tempData := {} }

/-- Whether the effect is an ERC-20 approval submission. -/
def isApproval : Effect → Bool
  | .approvalCall .. => true
  | _ => false

/-- Number of approval transactions submitted. -/
def countApprovals (l : List Effect) : Nat := (l.filter isApproval).length

/-- Whether a swap execution was submitted. -/
def hasSwapExec (l : List Effect) : Bool :=
  l.any fun e => match e with
    | .swapExec .. => true
    | _ => false

/-! ### Constants (`src/utils/constants.ts` is not under `src/`) -/

/-- Modelled from the spec: the chain-native asset placeholder address compared
case-insensitively by the source (`constants.ts` is not under `src/`). -/
def NATIVE_TOKEN_ADDRESS : String := "0xEeeeeEeeeEeEeeEeEeEeeEEEeeeeEeeeeeeeEEeE"

/-- Modelled from the spec: "the maximum representable value" of an allowance,
`2^256 - 1` (`constants.ts` is not under `src/`). -/
def MAX_UINT256 : Nat := 2 ^ 256 - 1

/-! ### `getTokenAllowance` (`src/lib/token-wallet.ts`) -/

/-- `getTokenAllowance`: for the native token, `MAX_UINT256` with no on-chain read;
otherwise the queried allowance as a decimal string, or `"0"` when the read fails
(`query = none`). The second component records whether an on-chain query was
performed. -/
def getTokenAllowance (tokenAddress _ownerAddress _spenderAddress : String)
    (query : Option Nat) : String × Bool :=
  if jsToLower tokenAddress = jsToLower NATIVE_TOKEN_ADDRESS then (natDecString MAX_UINT256, false)
  else
    match query with
    | some a => (natDecString a, true)
    | none => ("0", true)

/-! ### Fixed response messages (dynamic suffixes omitted) -/

def msgInvalidRequest : String := "❌ Invalid request. Please try again."
def msgTradeCancelled : String := "Trade cancelled."
def msgWithdrawCancelled : String := "Withdrawal cancelled."
def msgOperationCancelled : String := "Operation cancelled."
def msgSessionExpired : String := "❌ Session expired. Please use /start to begin again."
def msgWalletNotFound : String := "❌ Wallet not found. Please create or import a wallet first."
def msgWalletNotFoundBuy : String := "❌ Wallet not found. Please create or import a wallet and restart with /buy."
def msgSessionOrWalletNotFound : String := "❌ Session or wallet not found. Please start over."
def msgSessionExpiredWithdraw : String := "❌ Session expired. Please start with /withdraw again."
def msgMissingTxDetails : String := "❌ Missing transaction details in session. Please start over."
def msgInvalidAmountFormat : String := "❌ Invalid amount format."
def msgInvalidAmountFormatSell : String := "❌ Invalid amount format. Please enter a positive number."
def msgInvalidAmountFormatBuy : String := "❌ Invalid amount format. Please enter a positive number (e.g., 0.0000002)."
def msgInvalidSessionState : String := "❌ Invalid session state. Please restart with /buy."
def msgInsufficientBalance : String := "❌ Insufficient balance."
def msgInsufficientForGas : String := "❌ Insufficient balance for amount + gas."
def msgInsufficientSell : String := "❌ Insufficient balance. You only have this much available."
def msgInsufficientBuy : String := "❌ Insufficient balance. You only have this much ETH available."
def msgQuoteError : String := "❌ An error occurred while getting the quote. Please try again later."
def msgQuoteFetchFailed : String := "❌ Failed to fetch swap quote. Please try again."
def msgGenericLater : String := "❌ An error occurred. Please try again later."
def msgTradeError : String := "❌ An error occurred while processing your trade. Please try again later."
def msgApprovalFailed : String := "❌ Approval Failed — Unable to approve token spending."
def msgTokenApprovalFailed : String := "❌ Token approval failed. Please try again later."
def msgWithdrawError : String := "❌ An error occurred during withdrawal."
def msgWithdrawConfirmPrompt : String := "Withdrawal confirmation"
def msgSellConfirmPrompt : String := "Transaction details (sell)"
def msgBuyConfirmPrompt : String := "Transaction details (buy)"
def msgWithdrawSuccess : String := "✅ Withdrawal Successful!"
def msgWithdrawFailed : String := "❌ Withdrawal Failed."
def msgSellSuccess : String := "✅ Transaction Successful (sell)"
def msgSellFailed : String := "❌ Transaction Failed (sell)"
def msgBuyFailed : String := "❌ Transaction Failed (buy)"

/-! ### `handleWithdrawAmount` (`src/commands/withdraw.ts`, lines 80–130) -/

/-- External inputs of `handleWithdrawAmount`: `getGasParams` is total, and
`parseGwei(gasParams.maxFeePerGas)` / `parseGwei(gasParams.maxPriorityFeePerGas)`
are carried directly as wei integers. -/
structure WithdrawAmountEnv where
  maxFeePerGasWei : Int
  maxPriorityFeePerGasWei : Int
deriving DecidableEq, Repr

def handleWithdrawAmount (s : Session) (amountInput : String) (env : WithdrawAmountEnv) : Turn :=
  if s.userId.isNone || amountInput == "" then ⟨s, msgInvalidRequest, []⟩
  else
    match s.tempData.balance, s.tempData.toAddr with
    | some balance, some _toAddress =>
      if !isValidAmount amountInput then ⟨s, msgInvalidAmountFormat, []⟩
      else
        let cleanAmount := if strStartsWith amountInput "." then "0" ++ amountInput else amountInput
        match parseEther cleanAmount with
        | none => ⟨s, msgGenericLater, []⟩
        | some amountWei =>
          if balance < amountWei then ⟨s, msgInsufficientBalance, []⟩
          else
            let gasCost := env.maxFeePerGasWei * 21000
            if balance ≤ amountWei + gasCost then ⟨s, msgInsufficientForGas, []⟩
            else
              let td := { s.tempData with
                amount := some amountWei,
                maxFeePerGas := some (intDecString env.maxFeePerGasWei),
                maxPriorityFeePerGas := some (intDecString env.maxPriorityFeePerGasWei) }
              ⟨{ s with tempData := td, currentAction := some "withdraw_confirm" },
                msgWithdrawConfirmPrompt, []⟩
    | _, _ => ⟨{ s with currentAction := none }, msgSessionExpiredWithdraw, []⟩

/-! ### `handleWithdrawConfirmation` (`src/commands/withdraw.ts`, lines 132–175) -/

/-- External inputs of `handleWithdrawConfirmation`: `withdrawEth` may reject
(`none`); `saveTransaction` is recorded as an effect. -/
structure WithdrawConfirmEnv where
  receipt : Option Receipt := none
deriving DecidableEq, Repr

def handleWithdrawConfirmation (s : Session) (wallet : Option WalletData) (confirmed : Bool)
    (env : WithdrawConfirmEnv) : Turn :=
  if !confirmed then ⟨clearFlow s, msgWithdrawCancelled, []⟩
  else if s.userId.isNone || wallet.isNone then ⟨s, msgSessionOrWalletNotFound, []⟩
  else
    match s.tempData.fromAddr, s.tempData.toAddr, s.tempData.amount with
    | some _, some toAddress, some amount =>
      match env.receipt with
      | none => ⟨clearFlow s, msgWithdrawError, [Effect.withdrawExec toAddress amount]⟩
      | some r =>
        let effs := [Effect.withdrawExec toAddress amount, Effect.saveTx r.transactionHash r.status]
        let s2 := clearFlow s
        if r.status = TxStatus.success then ⟨s2, msgWithdrawSuccess, effs⟩
        else ⟨s2, msgWithdrawFailed, effs⟩
    | _, _, _ => ⟨s, msgMissingTxDetails, []⟩

/-! ### `handleSellAmountLogic` / `handleSellAmountInput` (`src/commands/sell.ts`, 235–353) -/

/-- External inputs of the sell amount step: `getGasParams` is total, `getQuote`
may reject (`none`, caught by the local `try/catch` which returns without
clearing the session). -/
structure SellAmountEnv where
  gasParams : GasParams := {}
  quote : Option Quote := none
deriving DecidableEq, Repr

/-- `handleSellAmountLogic`: writes `fromAmount` and the gas parameters into
`tempData` first (mutations survive a later throw), then formats the amount
(throws on a missing `fromAmount`/`fromDecimals`, caught locally), then fetches
the quote and advances to `sell_confirm`. The local catch returns the quote
error without clearing the session. -/
def handleSellAmountLogic (s : Session) (wallet : Option WalletData) (amountInUnits : Option Int)
    (env : SellAmountEnv) : Turn :=
  match wallet with
  | none => ⟨s, msgWalletNotFound, []⟩
  | some _ =>
    let s1 := { s with tempData := { s.tempData with
      fromAmount := amountInUnits,
      gasPrice := some env.gasParams.price,
      maxFeePerGas := some env.gasParams.maxFeePerGas,
      maxPriorityFeePerGas := some env.gasParams.maxPriorityFeePerGas } }
    if amountInUnits.isSome && s1.tempData.fromDecimals.isSome then
      match env.quote with
      | none => ⟨s1, msgQuoteError, []⟩
      | some q =>
        ⟨{ s1 with
            tempData := { s1.tempData with
              toAmount := some q.outAmount, estimatedGas := some q.estimatedGas },
            currentAction := some "sell_confirm" },
          msgSellConfirmPrompt, []⟩
    else ⟨s1, msgQuoteError, []⟩

/-- `handleSellAmountInput`: `"max"` (case-insensitive) bypasses parsing and passes
the stored base-unit `tokenBalance` straight to the logic step; otherwise the
input is validated, dot-cleaned, parsed with `parseUnits(input, fromDecimals)`,
and rejected when it exceeds `tokenBalance` (exact `BigInt` comparison). A throw
from a missing field reaches the outer catch, which returns without clearing. -/
def handleSellAmountInput (s : Session) (wallet : Option WalletData) (input : String)
    (env : SellAmountEnv) : Turn :=
  if s.userId.isNone || input == "" then ⟨s, msgInvalidRequest, []⟩
  else if jsToLower input = "max" then handleSellAmountLogic s wallet s.tempData.tokenBalance env
  else if !isValidAmount input then ⟨s, msgInvalidAmountFormatSell, []⟩
  else
    let amountInput := if strStartsWith input "." then "0" ++ input else input
    match s.tempData.fromDecimals with
    | none => ⟨s, msgGenericLater, []⟩
    | some d =>
      match parseUnitsExact amountInput d with
      | none => ⟨s, msgGenericLater, []⟩
      | some amountInUnits =>
        match s.tempData.tokenBalance with
        | none => ⟨s, msgGenericLater, []⟩
        | some tokenBalance =>
          if tokenBalance < amountInUnits then ⟨s, msgInsufficientSell, []⟩
          else handleSellAmountLogic s wallet (some amountInUnits) env

/-! ### `handleSellConfirmation` (`src/commands/sell.ts`, lines 355–485) -/

/-- External inputs of `handleSellConfirmation`: `getSwap`, `executeContractMethod`
and `executeTransaction` may reject (`none`); the two allowance reads are the
on-chain outcomes fed through `getTokenAllowance` (`none` = read failed, which
that function maps to `"0"`). -/
structure SellConfirmEnv where
  swap : Option SwapData := none
  allowanceQuery1 : Option Nat := none
  approveReceipt : Option Receipt := none
  allowanceQuery2 : Option Nat := none
  execReceipt : Option Receipt := none
deriving DecidableEq, Repr

/-- Swap submission tail of `handleSellConfirmation`. On a receipt the source
records the transaction and returns the success/failure message WITHOUT clearing
`currentAction` or `tempData` (the success message reads `tempData.toAmount`,
which throws into the clearing catch only when that field is absent). -/
def sellExec (s : Session) (swap : SwapData) (env : SellConfirmEnv) (effs : List Effect) : Turn :=
  match env.execReceipt with
  | none => ⟨clearFlow s, msgTradeError, effs ++ [Effect.swapExec swap.toAddr swap.value]⟩
  | some r =>
    let effs2 := effs ++ [Effect.swapExec swap.toAddr swap.value,
      Effect.saveTx r.transactionHash r.status]
    if r.status = TxStatus.success then
      match s.tempData.toAmount with
      | none => ⟨clearFlow s, msgTradeError, effs2⟩
      | some _ => ⟨s, msgSellSuccess, effs2⟩
    else ⟨s, msgSellFailed, effs2⟩

def handleSellConfirmation (s : Session) (wallet : Option WalletData) (confirmed : Bool)
    (env : SellConfirmEnv) : Turn :=
  if !confirmed then ⟨clearFlow s, msgTradeCancelled, []⟩
  else if s.userId.isNone then ⟨s, msgSessionExpired, []⟩
  else
    match wallet with
    | none => ⟨s, msgWalletNotFound, []⟩
    | some w =>
      match s.tempData.fromToken, s.tempData.fromAmount, s.tempData.fromDecimals with
      | some fromToken, some fromAmount, some _ =>
        match env.swap with
        | none => ⟨clearFlow s, msgTradeError, []⟩
        | some swap =>
          if jsToLower fromToken ≠ jsToLower NATIVE_TOKEN_ADDRESS then
            let allowanceStr := (getTokenAllowance fromToken w.address swap.toAddr
              env.allowanceQuery1).1
            match parseBigIntJS allowanceStr with
            | none => ⟨clearFlow s, msgTradeError, []⟩
            | some allowance =>
              if allowance < swap.inAmount then
                let effs := [Effect.approvalCall fromToken swap.toAddr MAX_UINT256]
                match env.approveReceipt with
                | none => ⟨clearFlow s, msgTradeError, effs⟩
                | some r =>
                  if r.status ≠ TxStatus.success then ⟨s, msgApprovalFailed, effs⟩
                  else
                    let newAllowanceStr := (getTokenAllowance fromToken w.address swap.toAddr
                      env.allowanceQuery2).1
                    match parseBigIntJS newAllowanceStr with
                    | none => ⟨clearFlow s, msgTradeError, effs⟩
                    | some newAllowance =>
                      if newAllowance < fromAmount then ⟨s, msgTokenApprovalFailed, effs⟩
                      else sellExec s swap env effs
              else sellExec s swap env []
          else sellExec s swap env []
      | _, _, _ => ⟨clearFlow s, msgTradeError, []⟩

/-! ### `handleBuyAmountInput` (`src/commands/sell.ts` buy section, lines 671–773) -/

/-- Outcome of the buy quote call: it can reject (caught by the outer catch, which
clears), resolve with missing data (early return, no clearing), or succeed. -/
inductive QuoteOutcome
  | threw
  | noData
  | ok (q : Quote)
deriving DecidableEq, Repr

structure BuyAmountEnv where
  gasParams : GasParams := {}
  quote : QuoteOutcome := .threw
deriving DecidableEq, Repr

/-- `handleBuyAmountInput`: the balance-sufficiency check compares
`parseFloat(amountInput) > parseFloat(formatEthBalance(balance))` — a
floating-point comparison, unlike the integer comparisons of Sell/Withdraw.
Note `!session.tempData.toDecimals` treats a 0-decimals token as an invalid
session (JS falsiness of the number 0); `balance` is a string there, so only a
missing balance is falsy. -/
def handleBuyAmountInput (s : Session) (wallet : Option WalletData) (input : String)
    (env : BuyAmountEnv) : Turn :=
  if s.userId.isNone || input == "" then ⟨s, msgInvalidRequest, []⟩
  else if s.tempData.toToken.isNone || s.tempData.toSymbol.isNone
      || s.tempData.toDecimals.getD 0 == 0
      || s.tempData.walletAddress.isNone || s.tempData.balance.isNone then
    ⟨clearFlow s, msgInvalidSessionState, []⟩
  else
    match wallet with
    | none => ⟨clearFlow s, msgWalletNotFoundBuy, []⟩
    | some _ =>
      if !isValidAmount input then ⟨s, msgInvalidAmountFormatBuy, []⟩
      else
        let amountInput := if strStartsWith input "." then "0" ++ input else input
        let balance := s.tempData.balance.getD 0
        if fpLt (jsParseFloat (formatEthBalance balance)) (jsParseFloat amountInput) then
          ⟨s, msgInsufficientBuy, []⟩
        else
          match parseEther amountInput with
          | none => ⟨clearFlow s, msgGenericLater, []⟩
          | some amountWei =>
            let s1 := { s with tempData := { s.tempData with
              fromAmount := some amountWei,
              gasPrice := some env.gasParams.price,
              maxFeePerGas := some env.gasParams.maxFeePerGas,
              maxPriorityFeePerGas := some env.gasParams.maxPriorityFeePerGas } }
            match env.quote with
            | .threw => ⟨clearFlow s1, msgGenericLater, []⟩
            | .noData => ⟨s1, msgQuoteFetchFailed, []⟩
            | .ok q =>
              ⟨{ s1 with
                  tempData := { s1.tempData with
                    toAmount := some q.outAmount, estimatedGas := some q.estimatedGas },
                  currentAction := some "buy_confirm" },
                msgBuyConfirmPrompt, []⟩

/-! ### `handleBuyConfirmation` (`src/commands/sell.ts` buy section, lines 775–875) -/

structure BuyConfirmEnv where
  swap : Option SwapData := none
  execReceipt : Option Receipt := none
deriving DecidableEq, Repr

/-- `handleBuyConfirmation`: after the receipt the source clears the session and
only then builds the success message from the just-cleared `tempData.toAmount`;
`BigInt(undefined)` throws, so the success path lands in the catch (which clears
again) and returns the generic error — the state is cleared for both statuses. -/
def handleBuyConfirmation (s : Session) (wallet : Option WalletData) (confirmed : Bool)
    (env : BuyConfirmEnv) : Turn :=
  if !confirmed then ⟨clearFlow s, msgTradeCancelled, []⟩
  else if s.userId.isNone then ⟨s, msgSessionExpired, []⟩
  else
    match wallet with
    | none => ⟨s, msgWalletNotFound, []⟩
    | some _ =>
      match s.tempData.fromAmount, s.tempData.fromDecimals with
      | some _, some _ =>
        match env.swap with
        | none => ⟨clearFlow s, msgTradeError, []⟩
        | some swap =>
          match env.execReceipt with
          | none => ⟨clearFlow s, msgTradeError, [Effect.swapExec swap.toAddr swap.value]⟩
          | some r =>
            let effs := [Effect.swapExec swap.toAddr swap.value,
              Effect.saveTx r.transactionHash r.status]
            let s2 := clearFlow s
            if r.status = TxStatus.success then ⟨clearFlow s2, msgTradeError, effs⟩
            else ⟨s2, msgBuyFailed, effs⟩
      | _, _ => ⟨clearFlow s, msgTradeError, []⟩

/-! ### Turn dispatch, cancel case (`index.ts`, `/api/action` and `/api/callback`) -/

/-- Outcome of dispatching one inbound turn: either fully handled here (the cancel
branch) or routed to one of the other command handlers. -/
inductive Outcome
  | done (t : Turn)
  | delegated (target : String)
deriving DecidableEq, Repr

/-- The `/api/action` routing rule: a non-slash input is re-routed to the pending
`currentAction` when one is set. -/
def routeAction (s : Session) (action : String) : String :=
  match s.currentAction with
  | some a => if !strStartsWith action "/" then a else action
  | none => action

/-- The `/api/action` switch, cancel case (other cases delegate to their handlers). -/
def apiActionStep (s : Session) (action : String) : Outcome :=
  let actionToPerform := routeAction s action
  if actionToPerform = "/cancel" then
    .done ⟨{ s with currentAction := none, tempData := {} }, msgOperationCancelled, []⟩
  else .delegated actionToPerform

/-- The `/api/callback` dispatch: the prefix tests and button tokens checked before
the switch, then the switch whose `/cancel` case clears the session (the other
switch cases delegate; case order in a JS switch over distinct labels is
immaterial). -/
def apiCallbackStep (s : Session) (callback : String) : Outcome :=
  if strStartsWith callback "sell_token_" then .delegated "handleSellTokenSelection"
  else if callback = "USDC" ∨ callback = "DAI" ∨ callback = "WBTC" ∨ callback = "custom" then
    .delegated "handleTokenSelection"
  else if callback = "confirm_yes" ∨ callback = "confirm_no" then .delegated "confirmation"
  else if strStartsWith callback "withdraw_confirm_" then .delegated "handleWithdrawConfirmation"
  else if strStartsWith callback "history_" then .delegated "handleTimeframeChange"
  else if strStartsWith callback "settings_" then .delegated "handleSettingsOption"
  else if strStartsWith callback "slippage_" then .delegated "updateSlippage"
  else if strStartsWith callback "gas_" then .delegated "updateGasPriority"
  else if callback = "/cancel" then
    .done ⟨{ s with currentAction := none, tempData := {} }, msgOperationCancelled, []⟩
  else .delegated "switchOther"

/-! ### Concrete sessions and environments used by witnesses and counterexamples -/

/-- A concrete mid-flow session (Sell flow, amount entry pending). -/
def exSessionC4 : Session :=
  { userId := some "u"
    currentAction := some "sell_amount"
    tempData := { tokenBalance := some 5 } }

/-- The spec test vector for the Withdraw fee check: balance 100000000000000 wei. -/
def exSessionC2 : Session :=
  { userId := some "u"
    currentAction := some "withdraw_amount"
    tempData := { fromAddr := some "0xsender", toAddr := some "0xdest",
                  balance := some 100000000000000 } }

/-- A Sell flow at `sell_confirm` on a non-native token (mixed-case address). -/
def exSessionC9 : Session :=
  { userId := some "u"
    currentAction := some "sell_confirm"
    tempData := { fromToken := some "0xToKeN", fromAmount := some 500,
                  fromDecimals := some 18, toAmount := some 250 } }

/-- A swap response requiring 500 input base units. -/
def exSwapC9 : SwapData :=
  { toAddr := "0xrouter"
    callData := "0xcafe"
    value := 0
    gasPrice := 5
    inAmount := 500 }

/-- A Sell confirmation environment whose allowance read fails (`none`). -/
def exEnvC9 : SellConfirmEnv :=
  { swap := some exSwapC9
    allowanceQuery1 := none
    approveReceipt := some { transactionHash := "0xappr", status := TxStatus.success,
                             gasUsed := 50000, effectiveGasPrice := 2 }
    allowanceQuery2 := some 1000
    execReceipt := some { transactionHash := "0xswap", status := TxStatus.success,
                          gasUsed := 150000, effectiveGasPrice := 2 } }

/-- A Sell flow at `sell_confirm` with the native input token (no approval step). -/
def exSessionC1 : Session :=
  { userId := some "u"
    currentAction := some "sell_confirm"
    tempData := { fromToken := some NATIVE_TOKEN_ADDRESS, fromSymbol := some "ETH",
                  fromAmount := some 1000, fromDecimals := some 18,
                  toAmount := some 750, walletAddress := some "0xw",
                  gasPrice := some "0.1" } }

/-- A swap response for the C1 scenario. -/
def exSwapC1 : SwapData :=
  { toAddr := "0xrouter"
    callData := "0xdata"
    value := 1000
    gasPrice := 5
    inAmount := 1000 }

/-- Sell confirmation environment: swap built, executor returns a success receipt. -/
def exEnvC1success : SellConfirmEnv :=
  { swap := some exSwapC1
    execReceipt := some { transactionHash := "0xhs", status := TxStatus.success,
                          gasUsed := 21000, effectiveGasPrice := 3 } }

/-- Sell confirmation environment: swap built, executor returns a failure receipt. -/
def exEnvC1failure : SellConfirmEnv :=
  { swap := some exSwapC1
    execReceipt := some { transactionHash := "0xhf", status := TxStatus.failure,
                          gasUsed := 21000, effectiveGasPrice := 3 } }

/-- A Withdraw flow at `withdraw_confirm` with all transaction details present. -/
def exSessionC1w : Session :=
  { userId := some "u"
    currentAction := some "withdraw_confirm"
    tempData := { fromAddr := some "0xw", toAddr := some "0xdest", balance := some 500000,
                  amount := some 100000, maxFeePerGas := some "1000000000" } }

/-- A Buy flow at `buy_confirm` with all fields present. -/
def exSessionC1b : Session :=
  { userId := some "u"
    currentAction := some "buy_confirm"
    tempData := { fromToken := some NATIVE_TOKEN_ADDRESS, fromSymbol := some "ETH",
                  fromDecimals := some 18, toToken := some "0xT", toSymbol := some "T",
                  toDecimals := some 6, fromAmount := some 1000, toAmount := some 777,
                  walletAddress := some "0xw", gasPrice := some "0.1" } }

/-- Buy confirmation environment with a failure receipt. -/
def exEnvC1b : BuyConfirmEnv :=
  { swap := some exSwapC1
    execReceipt := some { transactionHash := "0xhb", status := TxStatus.failure,
                          gasUsed := 21000, effectiveGasPrice := 3 } }

/-- Withdraw confirmation environment with a failure receipt. -/
def exEnvC1w : WithdrawConfirmEnv :=
  { receipt := some { transactionHash := "0xhw", status := TxStatus.failure,
                      gasUsed := 21000, effectiveGasPrice := 3 } }

/-- A Sell flow at `sell_amount` (amount entry) on a 6-decimals token. -/
def exSessionC5 : Session :=
  { userId := some "u"
    currentAction := some "sell_amount"
    tempData := { fromToken := some "0xToKeN", toToken := some NATIVE_TOKEN_ADDRESS,
                  fromSymbol := some "TOK", toSymbol := some "ETH",
                  fromDecimals := some 6, tokenBalance := some 10000000,
                  walletAddress := some "0xw" } }

/-- A Sell confirmation environment whose swap was built but whose execution throws. -/
def exEnvC5exec : SellConfirmEnv :=
  { swap := some exSwapC1 }

/-- A Withdraw flow at `withdraw_confirm` (for the execution-throw scenario). -/
def exSessionC5w : Session :=
  { userId := some "u"
    currentAction := some "withdraw_confirm"
    tempData := { fromAddr := some "0xw", toAddr := some "0xdest", amount := some 42 } }

/-- Sell confirmation environment: allowance 0, everything else succeeding. -/
def exEnvC3short : SellConfirmEnv :=
  { swap := some exSwapC9
    allowanceQuery1 := some 0
    approveReceipt := some { transactionHash := "0xappr", status := TxStatus.success,
                             gasUsed := 50000, effectiveGasPrice := 2 }
    allowanceQuery2 := some 1000000
    execReceipt := some { transactionHash := "0xswap", status := TxStatus.success,
                          gasUsed := 150000, effectiveGasPrice := 2 } }

/-- Sell confirmation environment: allowance 1000 already covers the swap. -/
def exEnvC3ample : SellConfirmEnv :=
  { swap := some exSwapC9
    allowanceQuery1 := some 1000
    execReceipt := some { transactionHash := "0xswap2", status := TxStatus.success,
                          gasUsed := 150000, effectiveGasPrice := 2 } }

/-- A Buy flow at `buy_amount` with a 1 ETH balance (`10^18` wei). -/
def exSessionC6 : Session :=
  { userId := some "u"
    currentAction := some "buy_amount"
    tempData := { fromToken := some NATIVE_TOKEN_ADDRESS, fromSymbol := some "ETH",
                  fromDecimals := some 18, toToken := some "0xT", toSymbol := some "T",
                  toDecimals := some 6, walletAddress := some "0xw",
                  balance := some 1000000000000000000 } }

/-- A Buy amount environment with a successful quote. -/
def exEnvC6 : BuyAmountEnv :=
  { quote := QuoteOutcome.ok { outAmount := 123456, estimatedGas := 70000 } }

/-! ## Helper lemmas -/

/-- A string accepted by `isValidAmount` is nonempty. -/
theorem isValidAmount_ne_empty {s : String} (h : isValidAmount s = true) : (s == "") = false := by
  by_cases hs : s = ""
  · subst hs; exact absurd h (by decide)
  · exact beq_eq_false_iff_ne.mpr hs

/-- A present option is not absent. -/
theorem isNone_false_of_isSome {α : Type} {o : Option α} (h : o.isSome = true) :
    o.isNone = false := by
  cases o <;> simp_all

/-- The digit character of `m < 10` decodes back to `m`. -/
theorem digitVal_digitChar {m : Nat} (h : m < 10) : digitVal (digitChar m) = m := by
  interval_cases m <;> decide

/-- The digit character of `m < 10` is a digit. -/
theorem isDigit_digitChar {m : Nat} (h : m < 10) : (digitChar m).isDigit = true := by
  interval_cases m <;> decide

/-- Appending one character to a digit string multiplies the value by 10. -/
theorem digitsToNat_append (l : List Char) (c : Char) :
    digitsToNat (l ++ [c]) = digitsToNat l * 10 + digitVal c := by
  simp [digitsToNat, List.foldl_append]

/-- The decimal printer emits a nonempty all-digit string that decodes to its input. -/
theorem natDigitsAux_spec : ∀ fuel n, n ≤ fuel →
    natDigitsAux (fuel + 1) n ≠ [] ∧ (natDigitsAux (fuel + 1) n).all Char.isDigit = true ∧
      digitsToNat (natDigitsAux (fuel + 1) n) = n := by
  intro fuel
  induction fuel with
  | zero =>
    intro n hn
    interval_cases n
    decide
  | succ f ih =>
    intro n hn
    by_cases h : n < 10
    · have : natDigitsAux (f + 1 + 1) n = [digitChar n] := by simp [natDigitsAux, h]
      rw [this]
      refine ⟨by simp, by simp [isDigit_digitChar h], ?_⟩
      simp [digitsToNat, digitVal_digitChar h]
    · have hdiv : n / 10 ≤ f := by omega
      obtain ⟨ih1, ih2, ih3⟩ := ih (n / 10) hdiv
      have hstep : natDigitsAux (f + 1 + 1) n
          = natDigitsAux (f + 1) (n / 10) ++ [digitChar (n % 10)] := by
        simp [natDigitsAux, h]
      have hm : n % 10 < 10 := Nat.mod_lt n (by norm_num)
      rw [hstep]
      refine ⟨by simp, ?_, ?_⟩
      · simp [List.all_append, ih2, isDigit_digitChar hm]
      · rw [digitsToNat_append, ih3, digitVal_digitChar hm]
        omega

/-- A digit character is not JS whitespace. -/
theorem isDigit_not_whitespace {c : Char} (h : c.isDigit = true) : jsWhitespace c = false := by
  by_contra hw
  rw [Bool.not_eq_false] at hw
  simp only [jsWhitespace, Bool.or_eq_true, decide_eq_true_eq] at hw
  rcases hw with ((((h1 | h1) | h1) | h1) | h1) | h1 <;> subst h1 <;> exact absurd h (by decide)

/-- `dropWhile` is the identity when the head (if any) fails the predicate. -/
theorem dropWhile_eq_self_of_head {p : Char → Bool} {l : List Char}
    (h : ∀ c, l.head? = some c → p c = false) : l.dropWhile p = l := by
  cases l with
  | nil => rfl
  | cons c t => simp [List.dropWhile, h c rfl]

/-- The head of an all-digit string is a digit. -/
theorem head?_isDigit {l : List Char} (h : l.all Char.isDigit = true) {c : Char}
    (hc : l.head? = some c) : c.isDigit = true := by
  cases l with
  | nil => exact absurd hc (by simp)
  | cons a t =>
    have hca : a = c := by simpa using hc
    subst hca
    exact (List.all_cons .. ▸ h : (_ && _) = true) |> Bool.and_elim_left

/-- The tail of an all-digit string is all digits. -/
theorem all_tail {p : Char → Bool} {l : List Char} (h : l.all p = true) : l.tail.all p = true := by
  cases l with
  | nil => exact h
  | cons a t => exact (List.all_cons .. ▸ h : (_ && _) = true) |> Bool.and_elim_right

/-- Whitespace stripping is the identity on all-digit strings. -/
theorem strip_digits {l : List Char} (h : l.all Char.isDigit = true) :
    ((l.dropWhile jsWhitespace).reverse.dropWhile jsWhitespace).reverse = l := by
  have h1 : l.dropWhile jsWhitespace = l :=
    dropWhile_eq_self_of_head fun c hc => isDigit_not_whitespace (head?_isDigit h hc)
  have hrev : l.reverse.all Char.isDigit = true := by
    rw [List.all_eq_true] at h ⊢
    intro c hc
    exact h c (List.mem_reverse.mp hc)
  have h2 : l.reverse.dropWhile jsWhitespace = l.reverse :=
    dropWhile_eq_self_of_head fun c hc => isDigit_not_whitespace (head?_isDigit hrev hc)
  rw [h1, h2, List.reverse_reverse]

/-- `decParse` on a nonempty all-digit string returns its decimal value. -/
theorem decParse_digits {l : List Char} (hne : l ≠ []) (h : l.all Char.isDigit = true) :
    decParse l = some ((digitsToNat l : Nat) : Int) := by
  have hplus : l.head? ≠ some '+' := fun hc => absurd (head?_isDigit h hc) (by decide)
  have hminus : l.head? ≠ some '-' := fun hc => absurd (head?_isDigit h hc) (by decide)
  simp [decParse, hplus, hminus, decDigits, hne, h]

/-- JS `BigInt` parsing inverts the decimal printer (the allowance strings the
handlers re-parse are produced by `toString`). -/
theorem parseBigIntJS_natDec (n : Nat) : parseBigIntJS (natDecString n) = some (n : Int) := by
  obtain ⟨hne, hall, hval⟩ := natDigitsAux_spec n n le_rfl
  have hdata : (natDecString n).data = natDigitsAux (n + 1) n := rfl
  unfold parseBigIntJS
  rw [hdata, strip_digits hall]
  have htail := all_tail hall
  have hx : ∀ c : Char, c.isDigit = true → c ≠ 'x' ∧ c ≠ 'X' ∧ c ≠ 'o' ∧ c ≠ 'O'
      ∧ c ≠ 'b' ∧ c ≠ 'B' := by
    intro c hc
    refine ⟨?_, ?_, ?_, ?_, ?_, ?_⟩ <;> rintro rfl <;> exact absurd hc (by decide)
  have hno : ∀ bad : Char, (natDigitsAux (n + 1) n).tail.head? ≠ some bad
      ∨ bad.isDigit = true := by
    intro bad
    by_cases hb : (natDigitsAux (n + 1) n).tail.head? = some bad
    · exact Or.inr (head?_isDigit htail hb)
    · exact Or.inl hb
  have hcond : ∀ b1 b2 : Char, b1.isDigit = false → b2.isDigit = false →
      ¬((natDigitsAux (n + 1) n).head? = some '0'
        ∧ ((natDigitsAux (n + 1) n).tail.head? = some b1
          ∨ (natDigitsAux (n + 1) n).tail.head? = some b2)) := by
    rintro b1 b2 hb1 hb2 ⟨-, hc | hc⟩
    · exact absurd (head?_isDigit htail hc) (by simp [hb1])
    · exact absurd (head?_isDigit htail hc) (by simp [hb2])
  rw [if_neg hne, if_neg (hcond 'x' 'X' (by decide) (by decide)),
    if_neg (hcond 'o' 'O' (by decide) (by decide)),
    if_neg (hcond 'b' 'B' (by decide) (by decide)),
    decParse_digits hne hall, hval]

/-- Every element kept by `takeWhile` satisfies the predicate. -/
theorem mem_takeWhile_pred {p : Char → Bool} :
    ∀ (l : List Char), ∀ c ∈ l.takeWhile p, p c = true := by
  intro l
  induction l with
  | nil => intro c hc; exact absurd hc (by simp)
  | cons a t ih =>
    intro c hc
    rw [List.takeWhile_cons] at hc
    by_cases ha : p a
    · rw [if_pos ha] at hc
      rcases List.mem_cons.mp hc with hca | hct
      · rw [hca]; exact ha
      · exact ih c hct
    · rw [if_neg ha] at hc
      exact absurd hc (by simp)

/-- The head of the `dropWhile` remainder fails the predicate. -/
theorem head?_dropWhile_pred {p : Char → Bool} :
    ∀ (l : List Char) (c : Char), (l.dropWhile p).head? = some c → p c = false := by
  intro l
  induction l with
  | nil => intro c hc; exact absurd hc (by simp)
  | cons a t ih =>
    intro c hc
    rw [List.dropWhile_cons] at hc
    by_cases ha : p a
    · rw [if_pos ha] at hc
      exact ih c hc
    · rw [if_neg ha] at hc
      have hca : a = c := by simpa using hc
      rw [← hca]
      exact Bool.eq_false_iff.mpr ha

/-- `takeWhile`/`dropWhile` recover a decomposition whose left part satisfies
the predicate and whose right part does not start with it. -/
theorem takeWhile_dropWhile_of_append {p : Char → Bool} :
    ∀ (ip rest : List Char), (∀ c ∈ ip, p c = true) →
      (∀ c, rest.head? = some c → p c = false) →
      (ip ++ rest).takeWhile p = ip ∧ (ip ++ rest).dropWhile p = rest := by
  intro ip
  induction ip with
  | nil =>
    intro rest _ hrest
    cases rest with
    | nil => exact ⟨rfl, rfl⟩
    | cons r t =>
      have hr : p r = false := hrest r rfl
      constructor
      · rw [List.nil_append, List.takeWhile_cons, if_neg (by simp [hr])]
      · rw [List.nil_append, List.dropWhile_cons, if_neg (by simp [hr])]
  | cons a ipt ih =>
    intro rest hip hrest
    have ha : p a = true := hip a (by simp)
    obtain ⟨ih1, ih2⟩ := ih rest (fun c hc => hip c (by simp [hc])) hrest
    constructor
    · rw [List.cons_append, List.takeWhile_cons, if_pos ha, ih1]
    · rw [List.cons_append, List.dropWhile_cons, if_pos ha, ih2]

/-- The decomposed numeral's value is positive exactly when its scaled-integer
numerator is. -/
theorem specValue_pos_iff (ip : List Char) (ofp : Option (List Char)) :
    0 < specValue ip ofp ↔
      0 < digitsToNat ip * 10 ^ (fracChars ofp).length + digitsToNat (fracChars ofp) := by
  have h10 : (0 : ℚ) < (10 : ℚ) ^ (fracChars ofp).length := by positivity
  have h10n : 0 < (10 : Nat) ^ (fracChars ofp).length := Nat.pos_pow_of_pos _ (by norm_num)
  unfold specValue
  constructor
  · intro h
    by_contra h0
    push_neg at h0
    have hz : digitsToNat ip * 10 ^ (fracChars ofp).length + digitsToNat (fracChars ofp) = 0 := by
      omega
    have hn : digitsToNat ip = 0 := by
      have := Nat.eq_zero_of_add_eq_zero_right hz
      exact (Nat.mul_eq_zero.mp this).resolve_right (by omega)
    have hm : digitsToNat (fracChars ofp) = 0 := Nat.eq_zero_of_add_eq_zero_left hz
    rw [hn, hm] at h
    simp at h
  · intro h
    by_cases hn : digitsToNat ip = 0
    · have hm : 0 < digitsToNat (fracChars ofp) := by
        rw [hn] at h
        simpa using h
      have : (0 : ℚ) < (digitsToNat (fracChars ofp) : ℚ) / (10 : ℚ) ^ (fracChars ofp).length :=
        div_pos (by exact_mod_cast hm) h10
      rw [hn]
      push_cast
      linarith
    · have : (0 : ℚ) < (digitsToNat ip : ℚ) := by
        exact_mod_cast Nat.pos_of_ne_zero hn
      have hnn : (0 : ℚ) ≤ (digitsToNat (fracChars ofp) : ℚ) / (10 : ℚ) ^ (fracChars ofp).length :=
        div_nonneg (by positivity) (le_of_lt h10)
      linarith

/-- The first character of a valid amount is a digit or the decimal point. -/
theorem isValidAmount_head {s : String} (h : isValidAmount s = true) {c : Char}
    (hc : s.data.head? = some c) : c.isDigit = true ∨ c = '.' := by
  simp only [isValidAmount, Bool.and_eq_true] at h
  obtain ⟨hreg, -⟩ := h
  simp only [amountRegexTest, Bool.and_eq_true] at hreg
  obtain ⟨-, hfrac⟩ := hreg
  cases hd : s.data with
  | nil => rw [hd] at hc; exact absurd hc (by simp)
  | cons c0 t =>
    rw [hd] at hc
    have hcc : c = c0 := by simpa using hc.symm
    subst hcc
    by_cases hdig : c.isDigit
    · exact Or.inl hdig
    · right
      rw [hd] at hfrac
      have hdrop : (c :: t).dropWhile Char.isDigit = c :: t := by
        simp [List.dropWhile, hdig]
      rw [hdrop] at hfrac
      by_cases hdot : c = '.'
      · exact hdot
      · rw [matchFracPart] at hfrac
        simp only [List.head?_cons] at hfrac
        rw [if_neg (by simp), if_neg (by simp [hdot])] at hfrac
        exact absurd hfrac (by decide)

/-- A valid amount is never the (case-folded) `"max"` keyword. -/
theorem isValidAmount_ne_max {s : String} (h : isValidAmount s = true) : jsToLower s ≠ "max" := by
  intro hm
  have hdata : s.data.map asciiLower = ['m', 'a', 'x'] := congrArg String.data hm
  cases hd : s.data with
  | nil => rw [hd] at hdata; exact absurd hdata (by decide)
  | cons c t =>
    rw [hd] at hdata
    simp only [List.map_cons] at hdata
    injection hdata with h1 _h2
    have hhead : s.data.head? = some c := by rw [hd]; rfl
    rcases isValidAmount_head h hhead with hdig | hdot
    · unfold asciiLower at h1
      by_cases hAZ : 'A' ≤ c ∧ c ≤ 'Z'
      · simp only [Char.isDigit, Bool.and_eq_true, decide_eq_true_eq] at hdig
        have hle : ('A' : Char) ≤ '9' := le_trans hAZ.1 hdig.2
        exact absurd hle (by decide)
      · rw [if_neg hAZ] at h1
        subst h1
        exact absurd hdig (by decide)
    · subst hdot
      exact absurd h1 (by decide)

/-- Approval counting distributes over concatenation. -/
theorem countApprovals_append (a b : List Effect) :
    countApprovals (a ++ b) = countApprovals a + countApprovals b := by
  simp [countApprovals, List.filter_append]

/-- The swap-execution tail submits no approvals beyond those already recorded. -/
theorem countApprovals_sellExec (s : Session) (sw : SwapData) (env : SellConfirmEnv)
    (effs : List Effect) :
    countApprovals (sellExec s sw env effs).effects = countApprovals effs := by
  unfold sellExec
  cases env.execReceipt with
  | none => simp [countApprovals_append, countApprovals, isApproval]
  | some r =>
    by_cases hr : r.status = TxStatus.success <;>
      cases s.tempData.toAmount <;>
      simp [hr, countApprovals_append, countApprovals, isApproval]

/-- The swap-execution tail always records the swap submission. -/
theorem hasSwapExec_sellExec (s : Session) (sw : SwapData) (env : SellConfirmEnv)
    (effs : List Effect) :
    hasSwapExec (sellExec s sw env effs).effects = true := by
  unfold sellExec
  cases env.execReceipt with
  | none => simp [hasSwapExec]
  | some r =>
    by_cases hr : r.status = TxStatus.success <;>
      cases s.tempData.toAmount <;>
      simp [hr, hasSwapExec]

/-! ## Claim theorems -/

/-- C4: from any non-idle session, a `/cancel` input — through either the
`/api/action` route or the `/api/callback` route — is handled by the cancel
branch itself: the resulting state has `currentAction` empty and `tempData`
equal to the empty map, the response is the fixed acknowledgement, and no
effects (in particular no transaction record) are produced. -/
theorem cancel_resets_session (s : Session) (h : s.currentAction ≠ none) :
    ∃ t : Turn,
      apiActionStep s "/cancel" = Outcome.done t ∧
      apiCallbackStep s "/cancel" = Outcome.done t ∧
      t.session.currentAction = none ∧ t.session.tempData = TempData.empty ∧
      t.response = msgOperationCancelled ∧ t.effects = [] := by
  clear h
  refine ⟨⟨{ s with currentAction := none, tempData := {} }, msgOperationCancelled, []⟩,
    ?_, ?_, rfl, rfl, rfl, rfl⟩
  · unfold apiActionStep routeAction
    have h1 : strStartsWith "/cancel" "/" = true := by decide
    cases hc : s.currentAction with
    | none => simp
    | some a => simp [h1]
  · unfold apiCallbackStep
    have h1 : strStartsWith "/cancel" "sell_token_" = false := by decide
    have h2 : strStartsWith "/cancel" "withdraw_confirm_" = false := by decide
    have h3 : strStartsWith "/cancel" "history_" = false := by decide
    have h4 : strStartsWith "/cancel" "settings_" = false := by decide
    have h5 : strStartsWith "/cancel" "slippage_" = false := by decide
    have h6 : strStartsWith "/cancel" "gas_" = false := by decide
    simp [h1, h2, h3, h4, h5, h6]

/-- C4 witness: the theorem applied to a concrete mid-flow session. -/
theorem cancel_resets_session_witness :
    ∃ t : Turn,
      apiActionStep exSessionC4 "/cancel" = Outcome.done t ∧
      apiCallbackStep exSessionC4 "/cancel" = Outcome.done t ∧
      t.session.currentAction = none ∧ t.session.tempData = TempData.empty ∧
      t.response = msgOperationCancelled ∧ t.effects = [] :=
  cancel_resets_session exSessionC4 (by decide)

/-- C2: in the Withdraw amount handler, with stored balance `b` and entered
amount `a` (its wei conversion), the flow advances to `withdraw_confirm` exactly
when `a ≤ b` and `b > a + 21000 * maxFeePerGas`, both exact integer comparisons
checked in that order (a first-check failure yields the first error message); a
failed check leaves the session — in particular `currentAction`, still at the
amount-entry state — unchanged; and `a = b` is rejected whenever the fee is
positive. -/
theorem withdrawAmount_balance_checks (s : Session) (input : String) (env : WithdrawAmountEnv)
    (b a : Int)
    (huid : s.userId.isSome)
    (hcur : s.currentAction = some "withdraw_amount")
    (hbal : s.tempData.balance = some b)
    (hto : s.tempData.toAddr.isSome)
    (hval : isValidAmount input = true)
    (hparse : parseEther (if strStartsWith input "." then "0" ++ input else input) = some a) :
    ((handleWithdrawAmount s input env).session.currentAction = some "withdraw_confirm"
        ↔ a ≤ b ∧ a + 21000 * env.maxFeePerGasWei < b) ∧
    (¬(a ≤ b ∧ a + 21000 * env.maxFeePerGasWei < b) →
        (handleWithdrawAmount s input env).session = s ∧
        (handleWithdrawAmount s input env).session.currentAction = some "withdraw_amount") ∧
    (b < a → (handleWithdrawAmount s input env).response = msgInsufficientBalance) ∧
    (a ≤ b ∧ b ≤ a + 21000 * env.maxFeePerGasWei →
        (handleWithdrawAmount s input env).response = msgInsufficientForGas) ∧
    (a = b ∧ 0 < env.maxFeePerGasWei →
        (handleWithdrawAmount s input env).session.currentAction = some "withdraw_amount") := by
  obtain ⟨toA, htoA⟩ := Option.isSome_iff_exists.mp hto
  have hne : (input == "") = false := isValidAmount_ne_empty hval
  have hnone : s.userId.isNone = false := by
    cases h : s.userId with
    | none => rw [h] at huid; exact absurd huid (by decide)
    | some u => rfl
  simp only [handleWithdrawAmount, hnone, hne, Bool.or_self, hbal, htoA, hval, Bool.not_true,
    Bool.false_eq_true, if_false, hparse]
  by_cases h1 : b < a
  · simp only [if_pos h1]
    refine ⟨by simp [hcur]; omega, fun _ => by simp [hcur], fun _ => by trivial,
      fun hx => absurd hx.1 (by omega), fun _ => by simp [hcur]⟩
  · simp only [if_neg h1]
    by_cases h2 : b ≤ a + env.maxFeePerGasWei * 21000
    · simp only [if_pos h2]
      refine ⟨by simp [hcur]; omega, fun _ => by simp [hcur], fun hx => absurd hx h1,
        fun _ => by trivial, fun _ => by simp [hcur]⟩
    · simp only [if_neg h2]
      refine ⟨by simp [hcur]; omega, fun hx => absurd ⟨by omega, by omega⟩ hx,
        fun hx => absurd hx h1, fun hx => absurd hx.2 (by omega), fun hx => absurd hx (by omega)⟩

/-- C2 witness: the spec test vector — balance `100000000000000` wei, fee
`21000 * 10^9 = 21000000000000` wei, requested amount the full balance
(`"0.0001"` = `100000000000000` wei) — is rejected and stays at amount entry. -/
theorem withdrawAmount_balance_checks_witness :
    (handleWithdrawAmount exSessionC2 "0.0001"
        { maxFeePerGasWei := 1000000000, maxPriorityFeePerGasWei := 100000000 }
      ).session.currentAction = some "withdraw_amount" :=
  (withdrawAmount_balance_checks exSessionC2 "0.0001"
      { maxFeePerGasWei := 1000000000, maxPriorityFeePerGasWei := 100000000 }
      100000000000000 100000000000000
      (by decide) rfl rfl (by decide) (by decide) (by decide)).2.2.2.2
    ⟨rfl, by decide⟩

/-- C8: at Sell amount entry the literal input `"max"` bypasses decimal
validation (it is not even a valid amount) and sets the flow input amount
`tempData.fromAmount` to exactly the stored base-unit balance `B`, whatever the
gas/quote oracle outcomes; when the quote succeeds (and the token decimals are
present, as they are after token selection) the flow advances to
`sell_confirm`. -/
theorem sell_max_uses_exact_balance (s : Session) (w : WalletData) (env : SellAmountEnv) (B : Int)
    (huid : s.userId.isSome)
    (hB : s.tempData.tokenBalance = some B) :
    isValidAmount "max" = false ∧
    (handleSellAmountInput s (some w) "max" env).session.tempData.fromAmount = some B ∧
    (∀ q, env.quote = some q → s.tempData.fromDecimals.isSome →
      (handleSellAmountInput s (some w) "max" env).session.currentAction = some "sell_confirm") := by
  have hnone : s.userId.isNone = false := by
    cases h : s.userId with
    | none => rw [h] at huid; exact absurd huid (by decide)
    | some u => rfl
  have hmax : jsToLower "max" = "max" := by decide
  have hne : (("max" : String) == "") = false := by decide
  refine ⟨by decide, ?_, ?_⟩
  · simp only [handleSellAmountInput, hnone, hne, Bool.or_self, Bool.false_eq_true, if_false,
      hmax, if_pos rfl, handleSellAmountLogic, hB]
    cases env.quote <;> cases hfd : s.tempData.fromDecimals <;> simp [hfd]
  · intro q hq hfdsome
    obtain ⟨d, hfd⟩ := Option.isSome_iff_exists.mp hfdsome
    simp only [handleSellAmountInput, hnone, hne, Bool.or_self, Bool.false_eq_true, if_false,
      hmax, if_pos rfl, handleSellAmountLogic, hB, hq, hfd]
    simp

/-- C8 witness: the theorem applied to a concrete Sell amount-entry session
whose stored balance has full 18-decimals precision. -/
theorem sell_max_uses_exact_balance_witness :
    isValidAmount "max" = false ∧
    (handleSellAmountInput
        { userId := some "u"
          currentAction := some "sell_amount"
          tempData := { fromDecimals := some 18, tokenBalance := some 1234567890123456789 } }
        (some ⟨"0xw"⟩) "max" { quote := some ⟨55, 7⟩ }
      ).session.tempData.fromAmount = some 1234567890123456789 ∧
    (∀ q, ({ quote := some ⟨55, 7⟩ } : SellAmountEnv).quote = some q →
      (Option.some (18 : Nat)).isSome →
      (handleSellAmountInput
          { userId := some "u"
            currentAction := some "sell_amount"
            tempData := { fromDecimals := some 18, tokenBalance := some 1234567890123456789 } }
          (some ⟨"0xw"⟩) "max" { quote := some ⟨55, 7⟩ }
        ).session.currentAction = some "sell_confirm") :=
  sell_max_uses_exact_balance
    { userId := some "u"
      currentAction := some "sell_amount"
      tempData := { fromDecimals := some 18, tokenBalance := some 1234567890123456789 } }
    ⟨"0xw"⟩ { quote := some ⟨55, 7⟩ } 1234567890123456789 (by decide) rfl

/-- C10: `hasEnoughBalance` is total: when all three strings parse as JS big
integers it returns exactly the truth value of `balance >= amount + gasEstimate`,
and when any of them fails to parse it returns `false` (the thrown error is
caught) rather than propagating an exception. -/
theorem hasEnoughBalance_total (bs as gs : String) :
    (∀ b a g : Int, parseBigIntJS bs = some b → parseBigIntJS as = some a →
      parseBigIntJS gs = some g → hasEnoughBalance bs as gs = decide (a + g ≤ b)) ∧
    ((parseBigIntJS bs = none ∨ parseBigIntJS as = none ∨ parseBigIntJS gs = none) →
      hasEnoughBalance bs as gs = false) := by
  constructor
  · intro b a g hb ha hg
    simp [hasEnoughBalance, hb, ha, hg]
  · intro h
    cases hb : parseBigIntJS bs <;> cases ha : parseBigIntJS as <;>
      cases hg : parseBigIntJS gs <;> simp_all [hasEnoughBalance]

/-- C10 witness: the theorem applied to parseable strings (`100 >= 40 + 60`) and
to a malformed balance string (`"1.5"` throws in `BigInt`, so `false`). -/
theorem hasEnoughBalance_total_witness :
    hasEnoughBalance "100" "40" "60" = decide ((40 : Int) + 60 ≤ 100) ∧
    hasEnoughBalance "1.5" "40" "60" = false :=
  ⟨(hasEnoughBalance_total "100" "40" "60").1 100 40 60 (by decide) (by decide) (by decide),
    (hasEnoughBalance_total "1.5" "40" "60").2 (Or.inl (by decide))⟩

/-- C9: `getTokenAllowance` answers `MAX_UINT256` with no on-chain query for the
native token (case-insensitive comparison, whatever the would-be query result);
for other tokens a failed on-chain read returns the string `"0"` instead of
throwing, which is exactly the answer for a true zero allowance — and in the Sell
confirmation handler a failed read therefore triggers an approval submission
(whose count is one) rather than aborting the flow. -/
theorem getTokenAllowance_failure_semantics (tok own sp : String) (q : Nat) :
    (jsToLower tok = jsToLower NATIVE_TOKEN_ADDRESS →
      getTokenAllowance tok own sp (some q) = (natDecString MAX_UINT256, false) ∧
      getTokenAllowance tok own sp none = (natDecString MAX_UINT256, false)) ∧
    (jsToLower tok ≠ jsToLower NATIVE_TOKEN_ADDRESS →
      getTokenAllowance tok own sp none = ("0", true) ∧
      getTokenAllowance tok own sp none = getTokenAllowance tok own sp (some 0)) ∧
    (∀ (s : Session) (w : WalletData) (env : SellConfirmEnv) (ft : String) (r : Int) (d : Nat)
        (sw : SwapData),
      s.userId.isSome → s.tempData.fromToken = some ft → s.tempData.fromAmount = some r →
      s.tempData.fromDecimals = some d → env.swap = some sw →
      jsToLower ft ≠ jsToLower NATIVE_TOKEN_ADDRESS →
      env.allowanceQuery1 = none → 0 < sw.inAmount →
      countApprovals (handleSellConfirmation s (some w) true env).effects = 1) := by
  have h0 : natDecString 0 = "0" := by decide
  refine ⟨fun h => ?_, fun h => ?_, ?_⟩
  · constructor <;> simp [getTokenAllowance, h]
  · constructor <;> simp [getTokenAllowance, h, h0]
  · intro s w env ft r d sw huid hft hfa hfd hsw hnn hq1 hpos
    have hnone : s.userId.isNone = false := by
      cases h : s.userId with
      | none => rw [h] at huid; exact absurd huid (by decide)
      | some u => rfl
    have hallow : getTokenAllowance ft w.address sw.toAddr env.allowanceQuery1 = ("0", true) := by
      simp [getTokenAllowance, hnn, hq1]
    have hparse0 : parseBigIntJS "0" = some 0 := by decide
    simp only [handleSellConfirmation, Bool.not_true, Bool.false_eq_true, if_false, hnone,
      hft, hfa, hfd, hsw, if_pos hnn, hallow, hparse0, if_pos hpos]
    cases env.approveReceipt with
    | none => simp [countApprovals, isApproval]
    | some r0 =>
      by_cases hr0 : r0.status = TxStatus.success
      · simp only [hr0, ne_eq, not_true_eq_false, Bool.false_eq_true, if_false]
        cases hq2 : env.allowanceQuery2 with
        | none =>
          simp only [getTokenAllowance, if_neg hnn, hparse0, h0]
          repeat' split
          all_goals
            first
            | (rw [countApprovals_sellExec]; simp [countApprovals, isApproval])
            | simp [countApprovals, isApproval]
        | some a2 =>
          simp only [getTokenAllowance, if_neg hnn, parseBigIntJS_natDec]
          repeat' split
          all_goals
            first
            | (rw [countApprovals_sellExec]; simp [countApprovals, isApproval])
            | simp [countApprovals, isApproval]
      · simp only [hr0, ne_eq, not_false_eq_true, if_true, if_pos]
        simp [countApprovals, isApproval, hr0]

/-- C9 witness: the theorem applied to the native token, to a non-native token
with a failed read, and to a concrete Sell confirmation whose allowance read
fails — one approval is submitted. -/
theorem getTokenAllowance_failure_semantics_witness :
    (getTokenAllowance NATIVE_TOKEN_ADDRESS "0xo" "0xs" (some 7)
        = (natDecString MAX_UINT256, false)) ∧
    getTokenAllowance "0xToKeN" "0xo" "0xs" none = ("0", true) ∧
    countApprovals (handleSellConfirmation exSessionC9 (some ⟨"0xw"⟩) true exEnvC9).effects = 1 :=
  ⟨((getTokenAllowance_failure_semantics NATIVE_TOKEN_ADDRESS "0xo" "0xs" 7).1 rfl).1,
    ((getTokenAllowance_failure_semantics "0xToKeN" "0xo" "0xs" 7).2.1 (by decide)).1,
    (getTokenAllowance_failure_semantics "0xToKeN" "0xo" "0xs" 7).2.2 exSessionC9 ⟨"0xw"⟩
      exEnvC9 "0xToKeN" 500 18 exSwapC9 (by decide) rfl rfl rfl rfl (by decide) rfl (by decide)⟩

/-- C1 (code divergence): after the user affirms at `sell_confirm` and the
executor returns a receipt — success and failure status alike — the Sell handler
does NOT clear the session: `currentAction` stays `sell_confirm` and `tempData`
keeps its stale amounts, although the transaction record effect was produced; at
the analogous inputs the Withdraw and Buy confirmation handlers do clear
`currentAction` and `tempData` unconditionally. -/
theorem sellConfirmation_keeps_state_after_receipt :
    ((handleSellConfirmation exSessionC1 (some ⟨"0xw"⟩) true exEnvC1success).session.currentAction
        = some "sell_confirm" ∧
      (handleSellConfirmation exSessionC1 (some ⟨"0xw"⟩) true exEnvC1success).session.tempData
        ≠ TempData.empty ∧
      Effect.saveTx "0xhs" TxStatus.success
        ∈ (handleSellConfirmation exSessionC1 (some ⟨"0xw"⟩) true exEnvC1success).effects) ∧
    ((handleSellConfirmation exSessionC1 (some ⟨"0xw"⟩) true exEnvC1failure).session.currentAction
        = some "sell_confirm" ∧
      (handleSellConfirmation exSessionC1 (some ⟨"0xw"⟩) true exEnvC1failure).session.tempData
        ≠ TempData.empty) ∧
    ((handleWithdrawConfirmation exSessionC1w (some ⟨"0xw"⟩) true exEnvC1w).session.currentAction
        = none ∧
      (handleWithdrawConfirmation exSessionC1w (some ⟨"0xw"⟩) true exEnvC1w).session.tempData
        = TempData.empty) ∧
    ((handleBuyConfirmation exSessionC1b (some ⟨"0xw"⟩) true exEnvC1b).session.currentAction
        = none ∧
      (handleBuyConfirmation exSessionC1b (some ⟨"0xw"⟩) true exEnvC1b).session.tempData
        = TempData.empty) := by
  decide

/-- C5 counterexample: a quote-retrieval failure during the Sell amount step (an
external provider failure in an active flow) does NOT abort the flow — the
resulting `currentAction` is still `sell_amount`, not idle, so the partial flow
stays resumable, contradicting the claim. -/
theorem sell_quote_failure_leaves_flow_resumable :
    (handleSellAmountInput exSessionC5 (some ⟨"0xw"⟩) "5"
        { quote := none }).session.currentAction = some "sell_amount" ∧
    (handleSellAmountInput exSessionC5 (some ⟨"0xw"⟩) "5"
        { quote := none }).response = msgQuoteError := by
  decide

/-- C5 (amended): provider failures that surface as thrown errors in the
confirmation handlers (swap construction and execution in Buy, Sell and
Withdraw) and in the Buy amount handler (a thrown quote call) abort the flow —
`currentAction` reset to idle, `tempData` cleared, a generic message; but a
quote failure during the Sell amount step, and a quote response with missing
data during the Buy amount step, return a generic message while leaving
`currentAction` unchanged (the flow stays resumable). -/
theorem provider_failure_flow_state :
    (∀ (s : Session) (w : WalletData) (amt : Option Int) (env : SellAmountEnv),
      env.quote = none →
      (handleSellAmountLogic s (some w) amt env).session.currentAction = s.currentAction ∧
      (handleSellAmountLogic s (some w) amt env).response = msgQuoteError) ∧
    (∀ (s : Session) (w : WalletData) (input : String) (env : BuyAmountEnv) (a : Int),
      s.userId.isSome → s.tempData.toToken.isSome → s.tempData.toSymbol.isSome →
      s.tempData.toDecimals.getD 0 ≠ 0 → s.tempData.walletAddress.isSome →
      s.tempData.balance.isSome →
      isValidAmount input = true →
      fpLt (jsParseFloat (formatEthBalance (s.tempData.balance.getD 0)))
        (jsParseFloat (if strStartsWith input "." then "0" ++ input else input)) = false →
      parseEther (if strStartsWith input "." then "0" ++ input else input) = some a →
      (env.quote = QuoteOutcome.threw →
        (handleBuyAmountInput s (some w) input env).session.currentAction = none ∧
        (handleBuyAmountInput s (some w) input env).session.tempData = TempData.empty ∧
        (handleBuyAmountInput s (some w) input env).response = msgGenericLater) ∧
      (env.quote = QuoteOutcome.noData →
        (handleBuyAmountInput s (some w) input env).session.currentAction = s.currentAction ∧
        (handleBuyAmountInput s (some w) input env).response = msgQuoteFetchFailed)) ∧
    (∀ (s : Session) (w : WalletData) (env : SellConfirmEnv),
      s.userId.isSome → env.swap = none →
      handleSellConfirmation s (some w) true env = ⟨clearFlow s, msgTradeError, []⟩) ∧
    (∀ (s : Session) (w : WalletData) (env : SellConfirmEnv) (ft : String) (r : Int) (d : Nat)
        (sw : SwapData),
      s.userId.isSome → s.tempData.fromToken = some ft → s.tempData.fromAmount = some r →
      s.tempData.fromDecimals = some d → env.swap = some sw →
      jsToLower ft = jsToLower NATIVE_TOKEN_ADDRESS → env.execReceipt = none →
      handleSellConfirmation s (some w) true env
        = ⟨clearFlow s, msgTradeError, [Effect.swapExec sw.toAddr sw.value]⟩) ∧
    (∀ (s : Session) (w : WalletData) (env : BuyConfirmEnv) (r : Int) (d : Nat),
      s.userId.isSome → s.tempData.fromAmount = some r → s.tempData.fromDecimals = some d →
      (env.swap = none →
        handleBuyConfirmation s (some w) true env = ⟨clearFlow s, msgTradeError, []⟩) ∧
      (∀ sw, env.swap = some sw → env.execReceipt = none →
        handleBuyConfirmation s (some w) true env
          = ⟨clearFlow s, msgTradeError, [Effect.swapExec sw.toAddr sw.value]⟩)) ∧
    (∀ (s : Session) (w : WalletData) (env : WithdrawConfirmEnv) (f t : String) (amt : Int),
      s.userId.isSome → s.tempData.fromAddr = some f → s.tempData.toAddr = some t →
      s.tempData.amount = some amt → env.receipt = none →
      handleWithdrawConfirmation s (some w) true env
        = ⟨clearFlow s, msgWithdrawError, [Effect.withdrawExec t amt]⟩) := by
  refine ⟨?_, ?_, ?_, ?_, ?_, ?_⟩
  · intro s w amt env hq
    simp only [handleSellAmountLogic, hq]
    split <;> exact ⟨rfl, rfl⟩
  · intro s w input env a huid htt hts htd hwa hbal hval hflt hparse
    have hnone : s.userId.isNone = false := isNone_false_of_isSome huid
    have hne : (input == "") = false := isValidAmount_ne_empty hval
    have h1 : s.tempData.toToken.isNone = false := isNone_false_of_isSome htt
    have h2 : s.tempData.toSymbol.isNone = false := isNone_false_of_isSome hts
    have h3 : (s.tempData.toDecimals.getD 0 == 0) = false := beq_eq_false_iff_ne.mpr htd
    have h4 : s.tempData.walletAddress.isNone = false := isNone_false_of_isSome hwa
    have h5 : s.tempData.balance.isNone = false := isNone_false_of_isSome hbal
    simp only [handleBuyAmountInput, hnone, hne, h1, h2, h3, h4, h5, Bool.or_self,
      Bool.false_eq_true, if_false, hval, Bool.not_true, hflt, parseEther] at *
    rw [hparse]
    constructor
    · intro hq
      simp [hq, clearFlow, TempData.empty]
    · intro hq
      simp [hq]
  · intro s w env huid hsw
    have hnone : s.userId.isNone = false := isNone_false_of_isSome huid
    simp only [handleSellConfirmation, Bool.not_true, Bool.false_eq_true, if_false, hnone, hsw]
    split <;> rfl
  · intro s w env ft r d sw huid hft hfa hfd hsw hnat hexec
    have hnone : s.userId.isNone = false := isNone_false_of_isSome huid
    simp only [handleSellConfirmation, Bool.not_true, Bool.false_eq_true, if_false, hnone,
      hft, hfa, hfd, hsw, if_neg (not_not_intro hnat), sellExec, hexec, List.nil_append]
  · intro s w env r d huid hfa hfd
    have hnone : s.userId.isNone = false := isNone_false_of_isSome huid
    constructor
    · intro hsw
      simp only [handleBuyConfirmation, Bool.not_true, Bool.false_eq_true, if_false, hnone,
        hfa, hfd, hsw]
    · intro sw hsw hexec
      simp only [handleBuyConfirmation, Bool.not_true, Bool.false_eq_true, if_false, hnone,
        hfa, hfd, hsw, hexec]
  · intro s w env f t amt huid hf ht hamt hrec
    have hnone : s.userId.isNone = false := isNone_false_of_isSome huid
    simp only [handleWithdrawConfirmation, Bool.not_true, Bool.false_eq_true, if_false, hnone,
      Option.isNone_some, Bool.or_self, hf, ht, hamt, hrec]

/-- C5 witness: the amended theorem applied at concrete sessions — a Sell quote
failure leaves the amount-entry state; a thrown Buy quote clears; a Buy quote
with missing data re-prompts; thrown swap/execution failures in the Sell, Buy
and Withdraw confirmations clear the flow. -/
theorem provider_failure_flow_state_witness :
    ((handleSellAmountLogic exSessionC5 (some ⟨"0xw"⟩) (some 5000000)
        { quote := none }).session.currentAction = exSessionC5.currentAction ∧
      (handleSellAmountLogic exSessionC5 (some ⟨"0xw"⟩) (some 5000000)
        { quote := none }).response = msgQuoteError) ∧
    ((handleBuyAmountInput exSessionC6 (some ⟨"0xw"⟩) "0.5"
        { quote := QuoteOutcome.threw }).session.currentAction = none ∧
      (handleBuyAmountInput exSessionC6 (some ⟨"0xw"⟩) "0.5"
        { quote := QuoteOutcome.threw }).session.tempData = TempData.empty ∧
      (handleBuyAmountInput exSessionC6 (some ⟨"0xw"⟩) "0.5"
        { quote := QuoteOutcome.threw }).response = msgGenericLater) ∧
    (handleSellConfirmation exSessionC1 (some ⟨"0xw"⟩) true { } =
      ⟨clearFlow exSessionC1, msgTradeError, []⟩) ∧
    (handleSellConfirmation exSessionC1 (some ⟨"0xw"⟩) true exEnvC5exec =
      ⟨clearFlow exSessionC1, msgTradeError, [Effect.swapExec exSwapC1.toAddr exSwapC1.value]⟩) ∧
    (handleWithdrawConfirmation exSessionC5w (some ⟨"0xw"⟩) true { } =
      ⟨clearFlow exSessionC5w, msgWithdrawError, [Effect.withdrawExec "0xdest" 42]⟩) := by
  refine ⟨provider_failure_flow_state.1 exSessionC5 ⟨"0xw"⟩ (some 5000000) { quote := none } rfl,
    ?_, ?_, ?_, ?_⟩
  · exact (provider_failure_flow_state.2.1 exSessionC6 ⟨"0xw"⟩ "0.5"
      { quote := QuoteOutcome.threw } 500000000000000000 (by decide) (by decide) (by decide)
      (by decide) (by decide) (by decide) (by decide) (by decide) (by decide)).1 rfl
  · exact provider_failure_flow_state.2.2.1 exSessionC1 ⟨"0xw"⟩ { } (by decide) rfl
  · exact provider_failure_flow_state.2.2.2.1 exSessionC1 ⟨"0xw"⟩ exEnvC5exec
      NATIVE_TOKEN_ADDRESS 1000 18 exSwapC1 (by decide) rfl rfl rfl rfl rfl rfl
  · exact provider_failure_flow_state.2.2.2.2.2 exSessionC5w ⟨"0xw"⟩ { } "0xw" "0xdest" 42
      (by decide) rfl rfl rfl rfl

/-- C6 counterexample: the Buy amount check is a `parseFloat` comparison, not an
exact base-unit comparison — with a stored balance of exactly `10^18` wei, the
entered amount `"1.000000000000000001"` (`10^18 + 1` wei, which exceeds the
balance) is accepted and the flow advances to `buy_confirm` with the oversized
amount stored, because both sides round to the same binary64 value. -/
theorem buy_float_check_inexact :
    (handleBuyAmountInput exSessionC6 (some ⟨"0xw"⟩) "1.000000000000000001"
        exEnvC6).session.currentAction = some "buy_confirm" ∧
    (handleBuyAmountInput exSessionC6 (some ⟨"0xw"⟩) "1.000000000000000001"
        exEnvC6).session.tempData.fromAmount = some (10 ^ 18 + 1) ∧
    exSessionC6.tempData.balance = some (10 ^ 18) ∧
    ((10 ^ 18 : Int) < 10 ^ 18 + 1) := by
  decide

/-- C6 (amended): the Sell amount check and both Withdraw checks are exact
arbitrary-precision integer comparisons on base units — the Sell handler rejects
exactly when the entered base-unit amount exceeds the stored token balance, and
the Withdraw handler advances exactly when the exact integer conditions hold;
the Buy amount check, by contrast, compares binary64 `parseFloat` values and is
inexact beyond 53-bit precision (see the counterexample). -/
theorem integer_exact_balance_checks :
    (∀ (s : Session) (w : WalletData) (env : SellAmountEnv) (input : String) (d : Nat) (B a : Int),
      s.userId.isSome → s.tempData.fromDecimals = some d → s.tempData.tokenBalance = some B →
      isValidAmount input = true →
      parseUnitsExact (if strStartsWith input "." then "0" ++ input else input) d = some a →
      ((handleSellAmountInput s (some w) input env).response = msgInsufficientSell ↔ B < a) ∧
      (a ≤ B →
        (handleSellAmountInput s (some w) input env).session.tempData.fromAmount = some a)) ∧
    (∀ (s : Session) (input : String) (env : WithdrawAmountEnv) (b a : Int),
      s.userId.isSome → s.currentAction = some "withdraw_amount" →
      s.tempData.balance = some b → s.tempData.toAddr.isSome →
      isValidAmount input = true →
      parseEther (if strStartsWith input "." then "0" ++ input else input) = some a →
      ((handleWithdrawAmount s input env).session.currentAction = some "withdraw_confirm"
        ↔ a ≤ b ∧ a + 21000 * env.maxFeePerGasWei < b)) := by
  constructor
  · intro s w env input d B a huid hfd hB hval hparse
    have hnone : s.userId.isNone = false := isNone_false_of_isSome huid
    have hne : (input == "") = false := isValidAmount_ne_empty hval
    have hmax : ¬jsToLower input = "max" := isValidAmount_ne_max hval
    simp only [handleSellAmountInput, hnone, hne, Bool.or_self, Bool.false_eq_true, if_false,
      if_neg hmax, hval, Bool.not_true, hfd, hparse, hB]
    by_cases hlt : B < a
    · simp only [if_pos hlt]
      exact ⟨by simp [hlt], fun hx => absurd hx (by omega)⟩
    · simp only [if_neg hlt]
      refine ⟨?_, fun _ => ?_⟩
      · simp only [handleSellAmountLogic]
        constructor
        · intro hresp
          cases hq : env.quote with
          | none =>
            rw [hq] at hresp
            simp [hfd, msgQuoteError, msgInsufficientSell] at hresp
          | some q =>
            rw [hq] at hresp
            simp [hfd, msgSellConfirmPrompt, msgInsufficientSell] at hresp
        · intro hx; exact absurd hx hlt
      · simp only [handleSellAmountLogic, hfd]
        cases env.quote <;> simp
  · intro s input env b a huid hcur hbal hto hval hparse
    obtain ⟨toA, htoA⟩ := Option.isSome_iff_exists.mp hto
    have hnone : s.userId.isNone = false := isNone_false_of_isSome huid
    have hne : (input == "") = false := isValidAmount_ne_empty hval
    simp only [handleWithdrawAmount, hnone, hne, Bool.or_self, Bool.false_eq_true, if_false,
      hbal, htoA, hval, Bool.not_true, hparse]
    by_cases h1 : b < a
    · simp only [if_pos h1]
      simp [hcur]
      omega
    · simp only [if_neg h1]
      by_cases h2 : b ≤ a + env.maxFeePerGasWei * 21000
      · simp only [if_pos h2]
        simp [hcur]
        omega
      · simp only [if_neg h2]
        simp
        omega

/-- C6 (amended) witness: the Sell part applied at a 6-decimals token session
with amount `"5"` (`5000000` base units of a `10000000` balance — accepted and
stored exactly), and the Withdraw part at the fee-boundary session. -/
theorem integer_exact_balance_checks_witness :
    (¬(handleSellAmountInput exSessionC5 (some ⟨"0xw"⟩) "5"
        { quote := none }).response = msgInsufficientSell ∧
      (handleSellAmountInput exSessionC5 (some ⟨"0xw"⟩) "5"
        { quote := none }).session.tempData.fromAmount = some 5000000) ∧
    ((handleWithdrawAmount exSessionC2 "0.00005"
        { maxFeePerGasWei := 1000000000, maxPriorityFeePerGasWei := 100000000 }
      ).session.currentAction = some "withdraw_confirm" ↔
      (50000000000000 : Int) ≤ 100000000000000 ∧
        (50000000000000 : Int) + 21000 * 1000000000 < 100000000000000) := by
  have hsell := (integer_exact_balance_checks.1 exSessionC5 ⟨"0xw"⟩ { quote := none } "5"
    6 10000000 5000000 (by decide) rfl rfl (by decide) (by decide))
  refine ⟨⟨fun hresp => ?_, hsell.2 (by decide)⟩, ?_⟩
  · exact absurd (hsell.1.mp hresp) (by decide)
  · exact integer_exact_balance_checks.2 exSessionC2 "0.00005"
      { maxFeePerGasWei := 1000000000, maxPriorityFeePerGasWei := 100000000 }
      100000000000000 50000000000000 (by decide) rfl rfl (by decide) (by decide) (by decide)

/-- C3: in the Sell confirmation with a non-native input token, an approval
setting the allowance to `MAX_UINT256` is submitted if and only if the queried
allowance is strictly below the swap's required input amount (so exactly one
approval when short, zero otherwise); and when the approval receipt reports
failure, or the re-queried allowance still falls short of the required amount,
the handler returns the corresponding distinct error and never submits the
swap execution. -/
theorem sell_approval_subprotocol (s : Session) (w : WalletData) (env : SellConfirmEnv)
    (ft : String) (r : Int) (d : Nat) (sw : SwapData) (al : Nat)
    (huid : s.userId.isSome)
    (hft : s.tempData.fromToken = some ft)
    (hfa : s.tempData.fromAmount = some r)
    (hfd : s.tempData.fromDecimals = some d)
    (hsw : env.swap = some sw)
    (hnn : jsToLower ft ≠ jsToLower NATIVE_TOKEN_ADDRESS)
    (hal : env.allowanceQuery1 = some al)
    (hreq : sw.inAmount = r) :
    (countApprovals (handleSellConfirmation s (some w) true env).effects
        = if (al : Int) < sw.inAmount then 1 else 0) ∧
    ((al : Int) < sw.inAmount →
      Effect.approvalCall ft sw.toAddr MAX_UINT256
        ∈ (handleSellConfirmation s (some w) true env).effects) ∧
    (∀ rc, (al : Int) < sw.inAmount → env.approveReceipt = some rc →
      rc.status ≠ TxStatus.success →
      (handleSellConfirmation s (some w) true env).response = msgApprovalFailed ∧
      hasSwapExec (handleSellConfirmation s (some w) true env).effects = false) ∧
    (∀ rc a2, (al : Int) < sw.inAmount → env.approveReceipt = some rc →
      rc.status = TxStatus.success → env.allowanceQuery2 = some a2 → (a2 : Int) < sw.inAmount →
      (handleSellConfirmation s (some w) true env).response = msgTokenApprovalFailed ∧
      hasSwapExec (handleSellConfirmation s (some w) true env).effects = false) := by
  have hnone : s.userId.isNone = false := isNone_false_of_isSome huid
  have hallow : getTokenAllowance ft w.address sw.toAddr env.allowanceQuery1
      = (natDecString al, true) := by
    simp [getTokenAllowance, hnn, hal]
  simp only [handleSellConfirmation, Bool.not_true, Bool.false_eq_true, if_false, hnone,
    hft, hfa, hfd, hsw, if_pos hnn, hallow, parseBigIntJS_natDec]
  by_cases hcmp : (al : Int) < sw.inAmount
  · simp only [if_pos hcmp]
    cases har : env.approveReceipt with
    | none =>
      refine ⟨by simp [countApprovals, isApproval, hcmp], fun _ => by simp [hcmp],
        fun rc _ hr => absurd hr (by simp), fun rc a2 _ hr => absurd hr (by simp)⟩
    | some r0 =>
      by_cases hst : r0.status = TxStatus.success
      · simp only [hst, ne_eq, not_true_eq_false, Bool.false_eq_true, if_false]
        cases hq2 : env.allowanceQuery2 with
        | none =>
          simp only [getTokenAllowance, if_neg hnn, show parseBigIntJS "0" = some 0 by decide]
          by_cases h0 : (0 : Int) < r
          · simp only [if_pos h0]
            refine ⟨by simp [countApprovals, isApproval, hcmp], fun _ => by simp [hcmp],
              fun rc _ hr hrs => ?_, fun rc a2 _ _ _ hq2x => absurd hq2x (by simp)⟩
            injection hr with hr2
            subst hr2
            exact absurd hst hrs
          · simp only [if_neg h0]
            refine ⟨?_, fun _ => ?_, fun rc _ hr hrs => ?_,
              fun rc a2 _ _ _ hq2x => absurd hq2x (by simp)⟩
            · rw [countApprovals_sellExec]
              simp [countApprovals, isApproval, hcmp]
            · unfold sellExec
              cases env.execReceipt with
              | none => simp
              | some rx =>
                by_cases hrx : rx.status = TxStatus.success <;>
                  cases s.tempData.toAmount <;> simp [hrx]
            · injection hr with hr2
              subst hr2
              exact absurd hst hrs
        | some a2v =>
          simp only [getTokenAllowance, if_neg hnn, parseBigIntJS_natDec]
          by_cases ha2 : (a2v : Int) < r
          · simp only [if_pos ha2]
            refine ⟨by simp [countApprovals, isApproval, hcmp], fun _ => by simp [hcmp],
              fun rc _ hr hrs => ?_, fun rc a2 _ hr hrs hq2x ha2x => ⟨by trivial, by simp [hasSwapExec]⟩⟩
            injection hr with hr2
            subst hr2
            exact absurd hst hrs
          · simp only [if_neg ha2]
            refine ⟨?_, fun _ => ?_, fun rc _ hr hrs => ?_, fun rc a2 _ hr hrs hq2x ha2x => ?_⟩
            · rw [countApprovals_sellExec]
              simp [countApprovals, isApproval, hcmp]
            · unfold sellExec
              cases env.execReceipt with
              | none => simp
              | some rx =>
                by_cases hrx : rx.status = TxStatus.success <;>
                  cases s.tempData.toAmount <;> simp [hrx]
            · injection hr with hr2
              subst hr2
              exact absurd hst hrs
            · injection hq2x with hq2y
              subst hq2y
              rw [hreq] at ha2x
              exact absurd ha2x ha2
      · simp only [hst, ne_eq, not_false_eq_true, if_true]
        refine ⟨by simp [countApprovals, isApproval, hcmp], fun _ => by simp [hcmp],
          fun rc _ hr hrs => ⟨by trivial, by simp [hasSwapExec]⟩,
          fun rc a2 _ hr hrs hq2x ha2x => ?_⟩
        injection hr with hr2
        subst hr2
        exact absurd hrs hst
  · simp only [if_neg hcmp]
    refine ⟨?_, fun hx => absurd hx hcmp, fun rc hx => absurd hx hcmp,
      fun rc a2 hx => absurd hx hcmp⟩
    rw [countApprovals_sellExec]
    simp [countApprovals, isApproval, hcmp]

/-- C3 witness: the claim's two vectors — allowance 0 against required amount
500 yields exactly one approval call (of `MAX_UINT256` to the swap spender),
and allowance 1000 against required amount 500 yields zero approval calls. -/
theorem sell_approval_subprotocol_witness :
    countApprovals (handleSellConfirmation exSessionC9 (some ⟨"0xw"⟩) true exEnvC3short).effects
        = 1 ∧
    Effect.approvalCall "0xToKeN" "0xrouter" MAX_UINT256
        ∈ (handleSellConfirmation exSessionC9 (some ⟨"0xw"⟩) true exEnvC3short).effects ∧
    countApprovals (handleSellConfirmation exSessionC9 (some ⟨"0xw"⟩) true exEnvC3ample).effects
        = 0 := by
  have hshort := sell_approval_subprotocol exSessionC9 ⟨"0xw"⟩ exEnvC3short "0xToKeN" 500 18
    exSwapC9 0 (by decide) rfl rfl rfl rfl (by decide) rfl rfl
  have hample := sell_approval_subprotocol exSessionC9 ⟨"0xw"⟩ exEnvC3ample "0xToKeN" 500 18
    exSwapC9 1000 (by decide) rfl rfl rfl rfl (by decide) rfl rfl
  refine ⟨?_, ?_, ?_⟩
  · rw [hshort.1]
    decide
  · exact hshort.2.1 (by decide)
  · rw [hample.1]
    decide

/-- C7: `isValidAmount` returns `true` exactly on the strings the claim
describes — a non-negative decimal numeral (optional digit run, optionally a
point and 1–18 fraction digits) with no redundant leading zero and numeric
value strictly greater than 0. It is a pure, total Boolean function by
construction; the `parseFloat(s) > 0` test of the source is modelled
sign-exactly (see the doc comment on `isValidAmount`). -/
theorem isValidAmount_spec (s : String) : isValidAmount s = true ↔ specValidAmount s := by
  constructor
  · intro h
    have hsplit0 : amountRegexTest s = true ∧ 0 < (numeralParts s).1 := by
      simpa [isValidAmount] using h
    obtain ⟨hreg, hpos⟩ := hsplit0
    simp only [amountRegexTest, Bool.and_eq_true] at hreg
    obtain ⟨hlook, hfrac⟩ := hreg
    have hsplit : s.data = s.data.takeWhile Char.isDigit ++ s.data.dropWhile Char.isDigit :=
      (List.takeWhile_append_dropWhile Char.isDigit s.data).symm
    have hipdig : ∀ c ∈ s.data.takeWhile Char.isDigit, c.isDigit = true :=
      mem_takeWhile_pred s.data
    have hzero : ¬∃ c cs, s.data.takeWhile Char.isDigit = '0' :: c :: cs := by
      rintro ⟨c, cs, hip⟩
      have hcdig : c.isDigit = true := hipdig c (by simp [hip])
      rw [hsplit, hip] at hlook
      simp [negLookaheadOk, hcdig] at hlook
    cases hrest : s.data.dropWhile Char.isDigit with
    | nil =>
      refine ⟨s.data.takeWhile Char.isDigit, none,
        by simpa [fracTail, hrest] using hsplit, hipdig, by simp, hzero, ?_⟩
      rw [specValue_pos_iff]
      simp only [numeralParts, hrest] at hpos
      simpa [fracChars] using hpos
    | cons c0 rest' =>
      by_cases hdot : c0 = '.'
      · subst hdot
        have hfrac' : rest'.all Char.isDigit = true ∧ 1 ≤ rest'.length ∧ rest'.length ≤ 18 := by
          rw [hrest] at hfrac
          rw [matchFracPart, if_neg (by simp), if_pos (by simp)] at hfrac
          simp only [Bool.and_eq_true, decide_eq_true_eq, List.tail_cons] at hfrac
          exact ⟨hfrac.2, hfrac.1.1, hfrac.1.2⟩
        refine ⟨s.data.takeWhile Char.isDigit, some rest', ?_, hipdig, ?_, hzero, ?_⟩
        · conv_lhs => rw [hsplit, hrest]
          rfl
        · intro fp hfp
          injection hfp with hfp2
          subst hfp2
          exact ⟨fun c hc => List.all_eq_true.mp hfrac'.1 c hc, hfrac'.2.1, hfrac'.2.2⟩
        · rw [specValue_pos_iff]
          simp only [numeralParts, hrest] at hpos
          simpa [fracChars] using hpos
      · exfalso
        rw [hrest] at hfrac
        rw [matchFracPart, if_neg (by simp), if_neg (by simp [hdot])] at hfrac
        exact absurd hfrac (by decide)
  · rintro ⟨ip, ofp, hsplit, hipdig, hfpcond, hzero, hval⟩
    have hrest_head : ∀ c, (fracTail ofp).head? = some c → c.isDigit = false := by
      cases ofp with
      | none => intro c hc; exact absurd hc (by simp [fracTail])
      | some fp =>
        intro c hc
        have hc' : ('.' : Char) = c := by simpa [fracTail] using hc
        rw [← hc']
        decide
    obtain ⟨htw, hdw⟩ := takeWhile_dropWhile_of_append ip (fracTail ofp) hipdig hrest_head
    rw [isValidAmount, Bool.and_eq_true]
    constructor
    · rw [amountRegexTest, Bool.and_eq_true]
      constructor
      · rw [hsplit]
        cases hip : ip with
        | nil =>
          cases hofp : ofp with
          | none => simp [fracTail, negLookaheadOk]
          | some fp =>
            obtain ⟨hfpd, hfp1, hfp18⟩ := hfpcond fp hofp
            cases hfp : fp with
            | nil => rw [hfp] at hfp1; exact absurd hfp1 (by simp)
            | cons f0 ft => simp [fracTail, negLookaheadOk]
        | cons a ipt =>
          cases hipt : ipt with
          | nil =>
            cases hofp : ofp with
            | none => simp [fracTail, negLookaheadOk]
            | some fp => simp [fracTail, negLookaheadOk]
          | cons b ipt' =>
            have ha : a ≠ '0' := by
              intro h0
              exact hzero ⟨b, ipt', by rw [hip, hipt, h0]⟩
            simp [fracTail, negLookaheadOk, ha]
      · rw [hsplit, hdw]
        cases hofp : ofp with
        | none => simp [fracTail, matchFracPart]
        | some fp =>
          obtain ⟨hfpd, hfp1, hfp18⟩ := hfpcond fp hofp
          simp only [fracTail, matchFracPart]
          rw [if_neg (by simp), if_pos (by simp)]
          simp only [List.tail_cons, Bool.and_eq_true, decide_eq_true_eq]
          exact ⟨⟨hfp1, hfp18⟩, List.all_eq_true.mpr hfpd⟩
    · rw [decide_eq_true_eq]
      have heq : (numeralParts s).1 = digitsToNat ip * 10 ^ (fracChars ofp).length
          + digitsToNat (fracChars ofp) := by
        simp only [numeralParts]
        rw [hsplit, htw, hdw]
        cases ofp with
        | none => simp [fracTail, fracChars]
        | some fp => simp [fracTail, fracChars]
      rw [heq, ← specValue_pos_iff]
      exact hval

end ForgeBot
